import Mathlib


/-!
Verification development for the catalog-generation script `generate.py`
(repository `generate_sqlite`).

The Python source is shallowly embedded: timestamps (`datetime` values) are
modelled as integers (seconds), Python lists/tuples as `List`, dictionaries as
association lists in insertion order, raised exceptions as `Except`/`Option`
results.  The `while True` binary-search loop of `find_file_weather_ids.b_search`
is embedded with an explicit fuel parameter so that it is structurally
recursive and computable; `b_search` passes fuel `ts.length`, which is proved
sufficient (the fuel-exhausted branch is unreachable from `b_search`, see
`bsLoop_spec`).
-/

namespace GenerateSqlite

/-- Index access `ordered_timestamps[i]` on the embedded timestamp tuple.
Out-of-range access never happens on the paths exercised (indices are
maintained below the length); the default value 0 stands in for Python's
IndexError. -/
def nth (l : List Int) (i : Nat) : Int :=
  l.getD i 0

/-- The code after the `while` loop breaks with `last_idx - first_idx <= 1`:
`min_index` is set iff `ordered_timestamps[first_idx] < search_timestamp` and
`max_index` is set iff `ordered_timestamps[last_idx] > search_timestamp`
(lines 1551-1556 of generate.py). -/
def bsFinal (ts : List Int) (t : Int) (first last : Nat) : Option Nat × Option Nat :=
  ((if nth ts first < t then some first else none),
   (if t < nth ts last then some last else none))

/-- The `while True` search loop of `b_search` (lines 1542-1556 of
generate.py): `mid_idx = int((first_idx + last_idx) / 2)`; on an exact match
return `(mid, mid)`; otherwise move `first_idx` or `last_idx` to `mid_idx` and
break into `bsFinal` once the bracket has width at most one.  The fuel
argument only forces structural termination; `b_search` supplies enough fuel
for the loop never to exhaust it. -/
def bsLoop (ts : List Int) (t : Int) : Nat → Nat → Nat → Option Nat × Option Nat
  | 0, _, _ => (none, none)
  | fuel + 1, first, last =>
    let mid := (first + last) / 2
    if nth ts mid = t then (some mid, some mid)
    else if nth ts mid < t then
      (if last - mid ≤ 1 then bsFinal ts t mid last else bsLoop ts t fuel mid last)
    else
      (if mid - first ≤ 1 then bsFinal ts t first mid else bsLoop ts t fuel first mid)

/-- Embedding of `find_file_weather_ids.b_search` (generate.py lines
1508-1558).  Returns the pair `(min_index, max_index)`; `none` models Python's
`None`.  Structure mirrors the source: empty tuple, single-element tuple, the
two short-circuit checks on the last element, then the search loop. -/
def b_search (t : Int) (ts : List Int) : Option Nat × Option Nat :=
  if ts.length = 0 then (none, none)
  else if ts.length = 1 then
    (if nth ts 0 = t then (some 0, some 0)
     else if nth ts 0 < t then (some 0, none)
     else (none, some 0))
  else
    (if nth ts (ts.length - 1) = t then (some (ts.length - 1), some (ts.length - 1))
     else if nth ts (ts.length - 1) < t then (some (ts.length - 1), none)
     else bsLoop ts t ts.length 0 (ts.length - 1))

/-- Characterisation of the possible outcomes of the search loop between the
outer bounds `lo` and `hi`: either both indices are present — an exact hit
`(i, i)` or an adjacent strict bracket `(i, i+1)` — or the lower index is
absent, in which case the search value does not exceed the very first
timestamp.  The upper index is never absent in loop results. -/
def BSRes (ts : List Int) (t : Int) (lo hi : Nat) : Option Nat × Option Nat → Prop
  | (some i, some j) =>
      lo ≤ i ∧ j ≤ hi ∧
        ((i = j ∧ nth ts i = t) ∨ (j = i + 1 ∧ nth ts i < t ∧ t < nth ts j))
  | (none, some j) => j ≤ hi ∧ t < nth ts j ∧ ¬ nth ts 0 < t
  | (_, none) => False

/-- Index access on the embedded list of weather IDs. -/
def nthId (l : List Nat) (i : Nat) : Nat :=
  l.getD i 0

/-- Embedding of `find_file_weather_ids` (generate.py lines 1493-1577).
`none` models a raised exception (the `assert`, the "Unable to find weather"
`RuntimeError` when any of the four indices is `None`, and the "Something
went horribly wrong" `RuntimeError` when the start-side lower index exceeds
the finish-side lower index).  The two trailing `if`s are the
nearest-neighbour selection: the start endpoint moves up to `max_start_index`
only when that is strictly closer, the finish endpoint moves down to
`min_finish_index` only when that is strictly closer (`total_seconds`
distances are modelled by `Int.natAbs` of timestamp differences). -/
def find_file_weather_ids (start_ts finish_ts : Int) (ordered_weather_ids : List Nat)
    (ordered_weather_timestamps : List Int) : Option (Nat × Nat) :=
  if ordered_weather_ids.length = ordered_weather_timestamps.length then
    match b_search start_ts ordered_weather_timestamps,
          b_search finish_ts ordered_weather_timestamps with
    | (some ms, some mxs), (some mf, some mxf) =>
      if mf < ms then none
      else
        some (nthId ordered_weather_ids
                (if (start_ts - nth ordered_weather_timestamps ms).natAbs >
                    (start_ts - nth ordered_weather_timestamps mxs).natAbs then mxs else ms),
              nthId ordered_weather_ids
                (if (finish_ts - nth ordered_weather_timestamps mf).natAbs <
                    (finish_ts - nth ordered_weather_timestamps mxf).natAbs then mf else mxf))
    | _, _ => none
  else none

/-- The key ordering used to reason about sorting the id/timestamp pairs of
the weather dictionary by id. -/
def keyLe (p q : Nat × Int) : Prop :=
  p.1 ≤ q.1

instance : DecidableRel keyLe :=
  fun p q => Nat.decLe p.1 q.1

instance : IsTotal (Nat × Int) keyLe :=
  ⟨fun p q => Nat.le_total p.1 q.1⟩

instance : IsTrans (Nat × Int) keyLe :=
  ⟨fun _ _ _ hab hbc => Nat.le_trans hab hbc⟩

/-- Embedding of `get_ordered_weather_ids_timestamps` (generate.py lines
1477-1490).  The weather dictionary is an association list in insertion
order; `keys()` and `values()` are the two projections, each sorted
ascending independently (Python `list.sort` is modelled by `insertionSort`). -/
def get_ordered_weather_ids_timestamps (weather_timestamps : List (Nat × Int)) :
    List Nat × List Int :=
  (List.insertionSort (· ≤ ·) (weather_timestamps.map Prod.fst),
   List.insertionSort (· ≤ ·) (weather_timestamps.map Prod.snd))

/-- Leap-year rule of the proleptic Gregorian calendar used by Python's
`datetime`. -/
def isLeap (y : Nat) : Bool :=
  (y % 4 == 0 && y % 100 != 0) || y % 400 == 0

/-- Days in month `m` (1-12) of a year with leap status `leap`; 0 for
out-of-range months. -/
def dim (leap : Bool) (m : Nat) : Nat :=
  match m with
  | 1 => 31
  | 2 => if leap then 29 else 28
  | 3 => 31
  | 4 => 30
  | 5 => 31
  | 6 => 30
  | 7 => 31
  | 8 => 31
  | 9 => 30
  | 10 => 31
  | 11 => 30
  | 12 => 31
  | _ => 0

/-- Model of a Python `datetime` date (the time-of-day component is never
used by the date-range code). -/
structure Date where
  y : Nat
  m : Nat
  d : Nat
deriving DecidableEq, Repr

/-- The calendar validity maintained by `datetime` values. -/
def valid_ymd (dt : Date) : Prop :=
  1 ≤ dt.y ∧ 1 ≤ dt.m ∧ dt.m ≤ 12 ∧ 1 ≤ dt.d ∧ dt.d ≤ dim (isLeap dt.y) dt.m

instance (dt : Date) : Decidable (valid_ymd dt) :=
  decidable_of_iff
    (1 ≤ dt.y ∧ 1 ≤ dt.m ∧ dt.m ≤ 12 ∧ 1 ≤ dt.d ∧ dt.d ≤ dim (isLeap dt.y) dt.m)
    Iff.rfl

/-- `datetime` comparison: lexicographic on (year, month, day). -/
def dateLt (a b : Date) : Prop :=
  a.y < b.y ∨ (a.y = b.y ∧ (a.m < b.m ∨ (a.m = b.m ∧ a.d < b.d)))

instance : DecidableRel dateLt := fun a b =>
  decidable_of_iff
    (a.y < b.y ∨ (a.y = b.y ∧ (a.m < b.m ∨ (a.m = b.m ∧ a.d < b.d)))) Iff.rfl

def dateLe (a b : Date) : Prop :=
  dateLt a b ∨ a = b

instance : DecidableRel dateLe := fun _ _ =>
  instDecidableOr

/-- The calendar successor of a valid date: increment the day with
month/year rollover. -/
def nextDay (dt : Date) : Date :=
  if dt.d < dim (isLeap dt.y) dt.m then ⟨dt.y, dt.m, dt.d + 1⟩
  else if dt.m < 12 then ⟨dt.y, dt.m + 1, 1⟩
  else ⟨dt.y + 1, 1, 1⟩

/-- `cur_date + timedelta(days=1)` (generate.py line 338): CPython
`datetime` values are bounded by `datetime.max` (9999-12-31 23:59:59.999999),
so adding one day to a midnight date raises `OverflowError` exactly on
9999-12-31; on every other valid date the sum is the calendar successor. -/
def addOneDay (dt : Date) : Option Date :=
  if dt = ⟨9999, 12, 31⟩ then none else some (nextDay dt)

/-- Days in the months of the year strictly before month `m`. -/
def daysBeforeMonth (leap : Bool) : Nat → Nat
  | 0 => 0
  | 1 => 0
  | m + 2 => daysBeforeMonth leap (m + 1) + dim leap (m + 1)

/-- Number of leap years in `[1, y]`. -/
def leapsBefore (y : Nat) : Nat :=
  y / 4 - y / 100 + y / 400

/-- A day ordinal: days elapsed from an epoch to the date (strictly monotone
along `nextDay` on valid dates). -/
def ordOf (dt : Date) : Nat :=
  365 * (dt.y - 1) + leapsBefore (dt.y - 1) +
    daysBeforeMonth (isLeap dt.y) dt.m + dt.d

/-- The decimal digit character for `n` (0-9). -/
def dChar (n : Nat) : Char :=
  Char.ofNat (48 + n)

/-- The numeric value of a digit character. -/
def dVal (c : Char) : Nat :=
  c.toNat - 48

/-- Whether a character is an ASCII decimal digit. -/
def isDigitChar (c : Char) : Bool :=
  48 ≤ c.toNat && c.toNat ≤ 57

/-- The canonical `%Y-%m-%d` rendering of a date by `strftime`, as its
character sequence (zero-padded month and day, four year digits; the model
covers the years 1000-9999 that survive the round-trip check of
`validate_date`). -/
def formatDate (dt : Date) : String :=
  String.mk [dChar (dt.y / 1000 % 10), dChar (dt.y / 100 % 10),
    dChar (dt.y / 10 % 10), dChar (dt.y % 10), '-',
    dChar (dt.m / 10 % 10), dChar (dt.m % 10), '-',
    dChar (dt.d / 10 % 10), dChar (dt.d % 10)]

/-- Parsing of a canonical `YYYY-MM-DD` date string into a valid date:
`none` unless the string is exactly ten characters, digit/dash shaped, and
denotes a real calendar date with a four-digit year.  This models the
combination used by `validate_date` (generate.py lines 301-315): `strptime`
with format `%Y-%m-%d` followed by an exact `strftime` round-trip (which
forces zero padding and a four-digit year) plus `dateutil` parseability. -/
def parseDate (s : String) : Option Date :=
  match s.data with
  | [y1, y2, y3, y4, s1, m1, m2, s2, d1, d2] =>
    if s1 = '-' ∧ s2 = '-' ∧ isDigitChar y1 ∧ isDigitChar y2 ∧ isDigitChar y3 ∧
        isDigitChar y4 ∧ isDigitChar m1 ∧ isDigitChar m2 ∧ isDigitChar d1 ∧
        isDigitChar d2 then
      (if 1000 ≤ 1000 * dVal y1 + 100 * dVal y2 + 10 * dVal y3 + dVal y4 ∧
          1 ≤ 10 * dVal m1 + dVal m2 ∧ 10 * dVal m1 + dVal m2 ≤ 12 ∧
          1 ≤ 10 * dVal d1 + dVal d2 ∧
          10 * dVal d1 + dVal d2 ≤
            dim (isLeap (1000 * dVal y1 + 100 * dVal y2 + 10 * dVal y3 + dVal y4))
              (10 * dVal m1 + dVal m2) then
        some ⟨1000 * dVal y1 + 100 * dVal y2 + 10 * dVal y3 + dVal y4,
          10 * dVal m1 + dVal m2, 10 * dVal d1 + dVal d2⟩
      else none)
    else none
  | _ => none

/-- Embedding of `validate_date` (generate.py lines 301-315): the string is a
valid date iff it survives `strptime("%Y-%m-%d")`, formats back to itself
exactly, and is `dateutil`-parseable — i.e. iff it is a canonical calendar
date string. -/
def validate_date (date : String) : Bool :=
  (parseDate date).isSome

/-- The relation between consecutive strings of a generated date list: the
later string renders the calendar successor of the date the earlier string
parses to. -/
def chainStep (s t : String) : Prop :=
  ∃ d, parseDate s = some d ∧ t = formatDate (nextDay d)

/-- The `while cur_date <= last: append strftime; cur_date += timedelta(1)`
loop of `generate_dates` (generate.py lines 334-338), embedded with a fuel
argument for structural termination; `generate_dates` passes
`ordOf last + 1 - ordOf first` which is proved sufficient.  `none` models
a raised `OverflowError`: the day addition overflows `datetime.max`, the
exception propagates and the accumulated list is discarded. -/
def genLoopDates : Nat → Date → Date → Option (List String)
  | 0, _, _ => some []
  | fuel + 1, cur, last =>
    if dateLe cur last then
      match addOneDay cur with
      | none => none
      | some nxt =>
        match genLoopDates fuel nxt last with
        | none => none
        | some rest => some (formatDate cur :: rest)
    else some []

/-- Embedding of `generate_dates` (generate.py lines 318-340): parse both
endpoint strings, order them, then emit every day from the earlier to the
later inclusive.  `none` models a raised exception: `OverflowError` from the
day addition when the later date is the calendar maximum 9999-12-31, or
`dateutil.parse` failure (unreachable, since callers validate first). -/
def generate_dates (start_date last_date : String) : Option (List String) :=
  match parseDate start_date, parseDate last_date with
  | some one_date, some next_date =>
    if dateLt one_date next_date then
      genLoopDates (ordOf next_date + 1 - ordOf one_date) one_date next_date
    else
      genLoopDates (ordOf one_date + 1 - ordOf next_date) next_date one_date
  | _, _ => none

/-- Python `str.split(sep)` for a one-character separator, on the character
list: splitting on every occurrence, keeping empty pieces, never returning
an empty list. -/
def splitOnChar (sep : Char) : List Char → List (List Char)
  | [] => [[]]
  | c :: rest =>
    if c = sep then [] :: splitOnChar sep rest
    else
      match splitOnChar sep rest with
      | [] => [[c]]
      | w :: ws => (c :: w) :: ws

/-- Python `str.split(sep)` for a one-character separator. -/
def strSplitOn (s : String) (sep : Char) : List String :=
  (splitOnChar sep s.data).map String.mk

/-- The characters Python's `str.isspace` — and hence argument-less
`str.strip()` — treats as whitespace: `\t`-`\r` (9-13), the ASCII
separators 28-31, space, `\x85`, `\xa0`, Ogham space mark 5760, the Unicode
spaces 8192-8202, line/paragraph separators 8232-8233, narrow no-break
space 8239, medium mathematical space 8287 and ideographic space 12288. -/
def isPySpace (c : Char) : Bool :=
  (9 ≤ c.toNat && c.toNat ≤ 13) || (28 ≤ c.toNat && c.toNat ≤ 31) ||
    c.toNat = 32 || c.toNat = 133 || c.toNat = 160 || c.toNat = 5760 ||
    (8192 ≤ c.toNat && c.toNat ≤ 8202) || c.toNat = 8232 || c.toNat = 8233 ||
    c.toNat = 8239 || c.toNat = 8287 || c.toNat = 12288

/-- Python `str.strip()`: drop whitespace from both ends. -/
def strTrim (s : String) : String :=
  String.mk (((s.data.dropWhile isPySpace).reverse.dropWhile
    isPySpace).reverse)

/-- The three ways `prepare_dates` can raise: `ValueError` from the tuple
unpacking `first_date, last_date = one_item.split(':')` when a component
holds two or more colons, `OverflowError` escaping from `generate_dates`
when a range expansion steps past `datetime.max`, and the aggregate
`RuntimeError` raised after all components are processed. -/
inductive PrepErr where
  | valueError
  | overflowError
  | runtimeError
deriving DecidableEq, Repr

instance {e a : Type} [DecidableEq e] [DecidableEq a] : DecidableEq (Except e a) :=
  fun x y =>
    match x, y with
    | .error e1, .error e2 =>
      if h : e1 = e2 then isTrue (by rw [h]) else
        isFalse fun hc => h (by injection hc)
    | .error _, .ok _ => isFalse fun hc => Except.noConfusion hc
    | .ok _, .error _ => isFalse fun hc => Except.noConfusion hc
    | .ok v1, .ok v2 =>
      if h : v1 = v2 then isTrue (by rw [h]) else
        isFalse fun hc => h (by injection hc)

/-- Whether a single comma-component (with at most one colon) is flagged as a
problem by `prepare_dates`: a single date that strips to something non-empty
but fails validation, or a colon range with an empty or invalid side. -/
def compProblem (item : String) : Bool :=
  let first_date := if (strSplitOn item ':').length = 2
    then (strSplitOn item ':').getD 0 "" else item
  let last_date := if (strSplitOn item ':').length = 2
    then (strSplitOn item ':').getD 1 "" else item
  if first_date = last_date then
    (if strTrim first_date = "" then false
     else if validate_date (strTrim first_date) then false else true)
  else
    (if strTrim first_date = "" ∨ strTrim last_date = "" then true
     else if validate_date (strTrim first_date) ∧ validate_date (strTrim last_date)
       then false else true)

/-- The dates a single healthy, non-overflowing comma-component contributes:
the stripped single date, or the expanded range. -/
def compDates (item : String) : List String :=
  let first_date := if (strSplitOn item ':').length = 2
    then (strSplitOn item ':').getD 0 "" else item
  let last_date := if (strSplitOn item ':').length = 2
    then (strSplitOn item ':').getD 1 "" else item
  if first_date = last_date then
    (if strTrim first_date = "" then []
     else if validate_date (strTrim first_date) then [strTrim first_date] else [])
  else
    (if strTrim first_date = "" ∨ strTrim last_date = "" then []
     else if validate_date (strTrim first_date) ∧ validate_date (strTrim last_date)
       then (generate_dates (strTrim first_date) (strTrim last_date)).getD []
       else [])

/-- Whether a single comma-component (with at most one colon) makes
`prepare_dates` raise `OverflowError`: a colon range with two non-empty,
validating sides whose expansion by `generate_dates` steps past the
calendar maximum (the later date being 9999-12-31). -/
def compOverflow (item : String) : Bool :=
  let first_date := if (strSplitOn item ':').length = 2
    then (strSplitOn item ':').getD 0 "" else item
  let last_date := if (strSplitOn item ':').length = 2
    then (strSplitOn item ':').getD 1 "" else item
  if first_date = last_date then false
  else
    (if strTrim first_date = "" ∨ strTrim last_date = "" then false
     else if validate_date (strTrim first_date) ∧ validate_date (strTrim last_date)
       then (generate_dates (strTrim first_date) (strTrim last_date)).isNone
       else false)

/-- The `for one_item in all_dates` loop of `prepare_dates` (generate.py
lines 356-391), threading the accumulated `dates` list and the `problems`
flag.  A component splitting into three or more colon parts makes the tuple
unpacking raise `ValueError` on the spot; a valid range whose expansion
overflows `datetime.max` lets the `OverflowError` of `generate_dates`
escape on the spot; otherwise single dates and ranges are classified
exactly as in the source, and after the loop the `problems` flag turns
into the aggregate `RuntimeError`. -/
def prepDatesLoop : List String → List String → Bool → Except PrepErr (List String)
  | [], dates, problems =>
    if problems then .error .runtimeError else .ok dates
  | one_item :: rest, dates, problems =>
    if 3 ≤ (strSplitOn one_item ':').length then .error .valueError
    else
      let first_date := if (strSplitOn one_item ':').length = 2
        then (strSplitOn one_item ':').getD 0 "" else one_item
      let last_date := if (strSplitOn one_item ':').length = 2
        then (strSplitOn one_item ':').getD 1 "" else one_item
      if first_date = last_date then
        (if strTrim first_date = "" then prepDatesLoop rest dates problems
         else if validate_date (strTrim first_date) then
           prepDatesLoop rest (dates ++ [strTrim first_date]) problems
         else prepDatesLoop rest dates true)
      else
        (if strTrim first_date = "" ∨ strTrim last_date = "" then
           prepDatesLoop rest dates true
         else if validate_date (strTrim first_date) ∧
             validate_date (strTrim last_date) then
           match generate_dates (strTrim first_date) (strTrim last_date) with
           | none => .error .overflowError
           | some ds => prepDatesLoop rest (dates ++ ds) problems
         else prepDatesLoop rest dates true)

/-- Embedding of `prepare_dates` (generate.py lines 343-391).  The
`split(',')` of Python never yields an empty list, so the initial
"missing values" check is kept but unreachable. -/
def prepare_dates (dates_arg : String) : Except PrepErr (List String) :=
  if strSplitOn dates_arg ',' = [] then .error .runtimeError
  else prepDatesLoop (strSplitOn dates_arg ',') [] false

/-- A site (plot) as delivered by the trait database: per the data model a
Site always has an integer id; the sitename may be absent (the source checks
for 'sitename' before using it, but indexes 'id' unconditionally). -/
structure SiteRec where
  id : Int
  sitename : Option String
deriving DecidableEq, Repr

/-- One element of a season's `sites` list; the 'site' key may be absent. -/
structure SiteEntry where
  site : Option SiteRec
deriving DecidableEq, Repr

/-- A season dictionary; the 'id' and 'sites' keys may be absent (the source
skips seasons lacking either). -/
structure Season where
  id : Option Int
  sites : Option (List SiteEntry)
deriving DecidableEq, Repr

/-- The body of the inner site loop of `map_file_to_plot_id`: a site entry
yields its id when it has a 'site' dict with a 'sitename' equal to one of
the path segments (the source skips entries missing either key). -/
def siteMatchId (file_parts : List String) (entry : SiteEntry) : Option Int :=
  match entry.site with
  | some sr =>
    (match sr.sitename with
     | some sn => if sn ∈ file_parts then some sr.id else none
     | none => none)
  | none => none

/-- One iteration of the outer season loop of `map_file_to_plot_id`: seasons
missing 'id' or 'sites' or with a different id leave the accumulator alone;
a matching season overwrites it with its first matching site, if any (the
inner `break` stops at the first match, the outer loop keeps going). -/
def seasonStep (file_parts : List String) (season_id : Int) (found : Option Int)
    (one_season : Season) : Option Int :=
  match one_season.id, one_season.sites with
  | some sid, some sites =>
    if sid = season_id then
      (match sites.findSome? (siteMatchId file_parts) with
       | some pid => some pid
       | none => found)
    else found
  | _, _ => found

/-- Embedding of `map_file_to_plot_id` (generate.py lines 1152-1177): split
the path on '/', scan the seasons, raise RuntimeError (`Except.error`) when
no plot id was found. -/
def map_file_to_plot_id (file_path : String) (season_id : Int)
    (seasons : List Season) : Except Unit Int :=
  match seasons.foldl (seasonStep (strSplitOn file_path '/') season_id) none with
  | some pid => .ok pid
  | none => .error ()

/-- The claim's reading of the lookup: the id of the first site, scanning
seasons in order and each matching season's sites in order, whose sitename
equals one of the path segments. -/
def firstMatchingPlotId (file_path : String) (season_id : Int)
    (seasons : List Season) : Option Int :=
  seasons.findSome? (fun s =>
    match s.id, s.sites with
    | some sid, some sites =>
      if sid = season_id then sites.findSome? (siteMatchId (strSplitOn file_path '/'))
      else none
    | _, _ => none)

/-- Whether a season is scanned for sites: it has an id equal to the search
id and a sites list. -/
def relSeason (season_id : Int) (s : Season) : Bool :=
  decide (s.id = some season_id) && s.sites.isSome

/-- Python `str.endswith`. -/
def strEndsWith (s suffix : String) : Bool :=
  suffix.data.isSuffixOf s.data

/-- `os.path.splitext(name)[1].lstrip('.')` — the extension after the last
dot, ignoring the leading dots of the name, with the dot stripped. -/
def extFormat (name : String) : String :=
  let lead := (name.data.takeWhile (fun c => c = '.')).length
  let rest := name.data.drop lead
  if '.' ∈ rest then String.mk ((rest.reverse.takeWhile (fun c => ¬ c = '.')).reverse)
  else ""

/-- A discovered file's record as built by `globus_get_files_info`:
directory, filename, extension, and the sidecar path once filled in. -/
structure FileInfo where
  directory : String
  filename : String
  format : String
  json_file : Option String
deriving DecidableEq, Repr

/-- The error raised by `globus_get_files_info`:
`raise RuntimeWarning("Missing metadata JSON files")`. -/
inductive GWErr where
  | runtimeWarning
deriving DecidableEq, Repr

/-- One iteration of the listing loop of `globus_get_files_info` (generate.py
lines 830-856): keep the entry when it ends in `_metadata.json` or its
extension matches the filter (wildcard accepted), and remember the last name
ending in `metadata.json` as the folder's sidecar. -/
def filesInfoStep (files_path : String) (extensions : List String)
    (acc : List FileInfo × Option String) (name : String) :
    List FileInfo × Option String :=
  if strEndsWith name "_metadata.json" ||
      extensions.any (fun e => e = "*" || e = extFormat name) then
    (acc.1 ++ [⟨files_path, name, extFormat name, none⟩],
     if strEndsWith name "metadata.json" then some name else acc.2)
  else acc

/-- One iteration of the sidecar-filling loop of `globus_get_files_info`
(generate.py lines 864-876), threading the shared mutable `json_file`, the
`missing_json_files` flag and the updated records: sidecar files are passed
through untouched; for other files, when no sidecar is known the mapper is
consulted, and a still-missing sidecar sets the flag. -/
def fillJsonStep (metadata_file_mapper : Option (String → String → Option String))
    (acc : Option String × Bool × List FileInfo) (one_file : FileInfo) :
    Option String × Bool × List FileInfo :=
  if strEndsWith one_file.filename "_metadata.json" then
    (acc.1, acc.2.1, acc.2.2 ++ [one_file])
  else
    let json' := match acc.1 with
      | some j => some j
      | none =>
        (match metadata_file_mapper with
         | some mfm => mfm one_file.directory one_file.filename
         | none => none)
    (json', acc.2.1 || json'.isNone,
     acc.2.2 ++ [match json' with
       | some j => { one_file with json_file := some j }
       | none => one_file])

/-- Embedding of `globus_get_files_info` (generate.py lines 814-881).  The
folder listing is the `entries` argument; the metadata-file mapper takes the
directory and filename (the transfer client and endpoint are closed over).
Returns `ok none` when nothing matched, raises `RuntimeWarning`
(`Except.error`) when some non-sidecar file is left without a sidecar, and
otherwise returns the enriched records. -/
def globus_get_files_info (entries : List String) (files_path : String)
    (extensions : List String)
    (metadata_file_mapper : Option (String → String → Option String)) :
    Except GWErr (Option (List FileInfo)) :=
  let phase1 := entries.foldl (filesInfoStep files_path extensions) ([], none)
  if phase1.1 = [] then .ok none
  else
    let phase2 := phase1.1.foldl (fillJsonStep metadata_file_mapper) (phase1.2, false, [])
    if phase2.2.1 then .error .runtimeWarning
    else .ok (some phase2.2.2)

/-- The observable file-system state of the `generate` run: the contents at
the user-supplied output path (`none` = no file) and at the temporary
working path.  Contents are abstracted to numeric version stamps. -/
structure GenFS where
  dest : Option Nat
  temp : Option Nat
deriving DecidableEq, Repr

/-- The build steps inside the `try` of `generate` (authorization,
experiments, cultivars, files, weather, weather_file_map, optional gene
tables, views — generate.py lines 1901-1933), abstracted to their outcomes:
each step either succeeds (writing only to the temporary database, modelled
as bumping the temp stamp) or raises, stopping the sequence. -/
def buildSteps : List Bool → GenFS → GenFS × Bool
  | [], fs => (fs, true)
  | ok :: rest, fs =>
    if ok then buildSteps rest { fs with temp := fs.temp.map (· + 1) }
    else (fs, false)

/-- The `finally` clause of `generate` (generate.py lines 1938-1943): close
the connection, and `os.unlink(working_filename)` if the temporary file
still exists. -/
def finallyClause (fs : GenFS) : GenFS :=
  if fs.temp.isSome then { fs with temp := none } else fs

/-- Embedding of `generate` (generate.py lines 1871-1943): argument
preparation runs before any file is created (`preSteps`); then
`tempfile.mkstemp()` creates the working file, the build steps run inside
`try`, `shutil.move(working_filename, args.output_file)` publishes the
database only after every step succeeded, and the `finally` clause removes
the leftover temporary file.  Returns whether the run succeeded together
with the final file-system state; on failure the exception propagates after
`finally`. -/
def generate (preSteps steps : List Bool) (fs0 : GenFS) : Bool × GenFS :=
  if preSteps.all id then
    let fs1 := { fs0 with temp := some 0 }
    (match buildSteps steps fs1 with
     | (fs2, true) => (true, finallyClause { dest := fs2.temp, temp := none })
     | (fs2, false) => (false, finallyClause fs2))
  else (false, fs0)

example : b_search 20 [10, 20, 30] = (some 1, some 1) := by decide

example : b_search 25 [10, 20, 30] = (some 1, some 2) := by decide

example : b_search 5 [10, 20, 30] = (none, some 1) := by decide

example : b_search 35 [10, 20, 30] = (some 2, none) := by decide

example : b_search 30 [10, 20, 30] = (some 2, some 2) := by decide

example : b_search 10 [10, 20, 30] = (none, some 1) := by decide

example : b_search 10 [10, 20] = (some 0, some 0) := by decide

example : b_search 7 [] = (none, none) := by decide

example : b_search 7 [7] = (some 0, some 0) := by decide

example : b_search 8 [7] = (some 0, none) := by decide

example : b_search 6 [7] = (none, some 0) := by decide

theorem BSRes.mono {ts : List Int} {t : Int} {lo hi lo' hi' : Nat}
    {r : Option Nat × Option Nat} (h : BSRes ts t lo hi r)
    (hlo : lo' ≤ lo) (hhi : hi ≤ hi') : BSRes ts t lo' hi' r := by
  rcases r with ⟨_ | i, _ | j⟩ <;> simp only [BSRes] at h ⊢
  · exact ⟨Nat.le_trans h.1 hhi, h.2.1, h.2.2⟩
  · exact ⟨Nat.le_trans hlo h.1, Nat.le_trans h.2.1 hhi, h.2.2⟩

/-- Invariant-based specification of the search loop: started on a bracket
`first < last` with `t` strictly below the `last` timestamp and (unless
`first = 0`) strictly above the `first` timestamp, and given at least
`last - first` fuel, the loop produces a result described by `BSRes`.
No sortedness of the list is required. -/
theorem bsLoop_spec (ts : List Int) (t : Int) :
    ∀ fuel first last, first < last → last - first ≤ fuel →
      t < nth ts last → (first = 0 ∨ nth ts first < t) →
      BSRes ts t first last (bsLoop ts t fuel first last) := by
  intro fuel
  induction fuel with
  | zero => intro first last hfl hfuel _ _; omega
  | succ fuel ih =>
    intro first last hfl hfuel hlast hfirst
    show BSRes ts t first last (bsLoop ts t (fuel + 1) first last)
    rw [bsLoop]
    by_cases heq : nth ts ((first + last) / 2) = t
    · rw [if_pos heq]
      exact ⟨by omega, by omega, Or.inl ⟨rfl, heq⟩⟩
    · rw [if_neg heq]
      by_cases hlt : nth ts ((first + last) / 2) < t
      · rw [if_pos hlt]
        by_cases hgap : last - (first + last) / 2 ≤ 1
        · rw [if_pos hgap]
          unfold bsFinal
          rw [if_pos hlt, if_pos hlast]
          refine ⟨by omega, Nat.le_refl _, Or.inr ⟨by omega, hlt, hlast⟩⟩
        · rw [if_neg hgap]
          exact (ih ((first + last) / 2) last (by omega) (by omega) hlast
            (Or.inr hlt)).mono (by omega) (Nat.le_refl _)
      · rw [if_neg hlt]
        have hgt : t < nth ts ((first + last) / 2) := by
          rcases lt_trichotomy (nth ts ((first + last) / 2)) t with h | h | h
          · exact absurd h hlt
          · exact absurd h heq
          · exact h
        by_cases hgap : (first + last) / 2 - first ≤ 1
        · rw [if_pos hgap]
          unfold bsFinal
          rw [if_pos hgt]
          rcases hfirst with h0 | hflt
          · by_cases hfl2 : nth ts first < t
            · rw [if_pos hfl2]
              refine ⟨Nat.le_refl _, by omega, ?_⟩
              have : first ≠ (first + last) / 2 := by
                intro hcontra
                rw [← hcontra] at hgt
                exact absurd hgt (not_lt.mpr (le_of_lt hfl2))
              exact Or.inr ⟨by omega, hfl2, hgt⟩
            · rw [if_neg hfl2]
              subst h0
              exact ⟨by omega, hgt, hfl2⟩
          · rw [if_pos hflt]
            refine ⟨Nat.le_refl _, by omega, ?_⟩
            have : first ≠ (first + last) / 2 := by
              intro hcontra
              rw [← hcontra] at hgt
              exact absurd hgt (not_lt.mpr (le_of_lt hflt))
            exact Or.inr ⟨by omega, hflt, hgt⟩
        · rw [if_neg hgap]
          exact (ih first ((first + last) / 2) (by omega) (by omega) hgt
            hfirst).mono (Nat.le_refl _) (by omega)

/-- When `b_search` returns two present indices they are equal or adjacent,
in range, and their timestamps weakly bracket the search value. -/
theorem b_search_both {ts : List Int} {t : Int} {i j : Nat}
    (h : b_search t ts = (some i, some j)) :
    i ≤ j ∧ j ≤ i + 1 ∧ j < ts.length ∧ nth ts i ≤ t ∧ t ≤ nth ts j := by
  unfold b_search at h
  by_cases h0 : ts.length = 0
  · rw [if_pos h0] at h; exact absurd h (by simp)
  · rw [if_neg h0] at h
    by_cases h1 : ts.length = 1
    · rw [if_pos h1] at h
      by_cases he : nth ts 0 = t
      · rw [if_pos he] at h
        obtain ⟨hi, hj⟩ : some 0 = some i ∧ some 0 = some j := by
          constructor <;> [exact congrArg Prod.fst h; exact congrArg Prod.snd h]
        obtain rfl : 0 = i := Option.some_injective _ hi
        obtain rfl : 0 = j := Option.some_injective _ hj
        exact ⟨Nat.le_refl _, by omega, by omega, le_of_eq he, ge_of_eq he⟩
      · rw [if_neg he] at h
        by_cases hlt : nth ts 0 < t
        · rw [if_pos hlt] at h
          exact absurd (congrArg Prod.snd h) (by simp)
        · rw [if_neg hlt] at h
          exact absurd (congrArg Prod.fst h) (by simp)
    · rw [if_neg h1] at h
      by_cases he : nth ts (ts.length - 1) = t
      · rw [if_pos he] at h
        obtain ⟨hi, hj⟩ : some (ts.length - 1) = some i ∧ some (ts.length - 1) = some j := by
          constructor <;> [exact congrArg Prod.fst h; exact congrArg Prod.snd h]
        obtain rfl : ts.length - 1 = i := Option.some_injective _ hi
        obtain rfl : ts.length - 1 = j := Option.some_injective _ hj
        exact ⟨Nat.le_refl _, by omega, by omega, le_of_eq he, ge_of_eq he⟩
      · rw [if_neg he] at h
        by_cases hlt : nth ts (ts.length - 1) < t
        · rw [if_pos hlt] at h
          exact absurd (congrArg Prod.snd h) (by simp)
        · rw [if_neg hlt] at h
          have hgt : t < nth ts (ts.length - 1) := by
            rcases lt_trichotomy (nth ts (ts.length - 1)) t with hc | hc | hc
            · exact absurd hc hlt
            · exact absurd hc he
            · exact hc
          have hspec := bsLoop_spec ts t ts.length 0 (ts.length - 1)
            (by omega) (by omega) hgt (Or.inl rfl)
          rw [h] at hspec
          rcases hspec with ⟨-, hjle, hcase⟩
          rcases hcase with ⟨rfl, hval⟩ | ⟨rfl, hlo, hhi⟩
          · exact ⟨Nat.le_refl _, by omega, by omega, le_of_eq hval, ge_of_eq hval⟩
          · exact ⟨by omega, by omega, by omega, le_of_lt hlo, le_of_lt hhi⟩

example : find_file_weather_ids 600 605 [1, 2, 3] [598, 602, 610] = some (1, 2) := by decide

example : find_file_weather_ids 9 1 [1, 2] [0, 10] = some (2, 1) := by decide

theorem getD_mem_of_lt {α : Type} (d : α) :
    ∀ (l : List α) (k : Nat), k < l.length → l.getD k d ∈ l := by
  intro l
  induction l with
  | nil => intro k hk; simp at hk
  | cons a tl ih =>
    intro k hk
    cases k with
    | zero => exact List.mem_cons_self a tl
    | succ k => exact List.mem_cons_of_mem a (ih k (by simpa using hk))

/-- In a weakly ascending ID list, `getD` is monotone on in-range indices. -/
theorem nthId_mono {l : List Nat} (h : l.Pairwise (· ≤ ·)) :
    ∀ i j, i ≤ j → j < l.length → nthId l i ≤ nthId l j := by
  intro i j hij hj
  rcases Nat.eq_or_lt_of_le hij with rfl | hlt
  · exact Nat.le_refl _
  · have hi : i < l.length := Nat.lt_trans hlt hj
    have hpg := List.pairwise_iff_get.mp h ⟨i, hi⟩ ⟨j, hj⟩ hlt
    rw [nthId, nthId, List.getD_eq_getElem _ _ hi, List.getD_eq_getElem _ _ hj]
    simpa [List.get_eq_getElem] using hpg

/-- Whenever the embedded `find_file_weather_ids` returns a pair without
raising, and the file window is not inverted (`start_ts ≤ finish_ts`), the
returned weather IDs are ordered, provided the ID list is ascending. -/
theorem find_file_weather_ids_ordered {start_ts finish_ts : Int}
    {ids : List Nat} {ts : List Int} {a b : Nat}
    (hids : ids.Pairwise (· ≤ ·)) (hsf : start_ts ≤ finish_ts)
    (hres : find_file_weather_ids start_ts finish_ts ids ts = some (a, b)) :
    a ≤ b := by
  unfold find_file_weather_ids at hres
  by_cases hlen : ids.length = ts.length
  · rw [if_pos hlen] at hres
    split at hres
    on_goal 2 => exact absurd hres (by simp)
    rename_i ms mxs mf mxf hb1 hb2
    by_cases hguard : mf < ms
    · rw [if_pos hguard] at hres
      exact absurd hres (by simp)
    · rw [if_neg hguard] at hres
      obtain ⟨hs1, hs2, hs3, hs4, hs5⟩ := b_search_both hb1
      obtain ⟨hf1, hf2, hf3, hf4, hf5⟩ := b_search_both hb2
      simp only [Option.some.injEq, Prod.mk.injEq] at hres
      obtain ⟨ha, hb⟩ := hres
      subst ha
      subst hb
      have hidx : (if (start_ts - nth ts ms).natAbs > (start_ts - nth ts mxs).natAbs
            then mxs else ms) ≤
          (if (finish_ts - nth ts mf).natAbs < (finish_ts - nth ts mxf).natAbs
            then mf else mxf) := by
        by_cases hA : (start_ts - nth ts ms).natAbs > (start_ts - nth ts mxs).natAbs
        · simp only [if_pos hA]
          rcases Nat.lt_or_ge ms mf with hlt | hge
          · by_cases hB : (finish_ts - nth ts mf).natAbs <
                (finish_ts - nth ts mxf).natAbs
            · simp only [if_pos hB]; omega
            · simp only [if_neg hB]; omega
          · have hmm : ms = mf := by omega
            subst hmm
            rcases (by omega : ms = mxs ∨ mxs = ms + 1) with h | h <;> subst h
            · by_cases hB : (finish_ts - nth ts ms).natAbs <
                  (finish_ts - nth ts mxf).natAbs
              · simp only [if_pos hB]; omega
              · simp only [if_neg hB]; omega
            · rcases (by omega : ms = mxf ∨ mxf = ms + 1) with h2 | h2 <;> subst h2
              · by_cases hB : (finish_ts - nth ts ms).natAbs <
                    (finish_ts - nth ts ms).natAbs
                · simp only [if_pos hB]; omega
                · simp only [if_neg hB]; omega
              · by_cases hB : (finish_ts - nth ts ms).natAbs <
                    (finish_ts - nth ts (ms + 1)).natAbs
                · simp only [if_pos hB]
                  omega
                · simp only [if_neg hB]
                  omega
        · simp only [if_neg hA]
          by_cases hB : (finish_ts - nth ts mf).natAbs <
              (finish_ts - nth ts mxf).natAbs
          · simp only [if_pos hB]; omega
          · simp only [if_neg hB]; omega
      refine nthId_mono hids _ _ hidx ?_
      rw [hlen]
      by_cases hB : (finish_ts - nth ts mf).natAbs < (finish_ts - nth ts mxf).natAbs
      · simp only [if_pos hB]; omega
      · simp only [if_neg hB]; omega
  · rw [if_neg hlen] at hres
    exact absurd hres (by simp)

/-- C1: the claim states that for a map satisfying the monotonic-pairing
invariant and any search timestamp between the first and last ordered
timestamps inclusive, `b_search` returns two present indices `i ≤ j` whose
timestamps bracket the value.  The code violates this: for the strictly
ascending timestamps `[10, 20, 30]` (ids `[1, 2, 3]`) and the in-range search
timestamp `10`, which equals the first timestamp, `b_search` returns an absent
lower index `(none, some 1)`, and `find_file_weather_ids` therefore raises
(`none` in the embedding) instead of bracketing.  This contradicts the
function's own documented contract, so the claim is recorded as a code bug
and this theorem evaluates the code at the failing input. -/
theorem C1_b_search_first_element_code_bug :
    b_search 10 [10, 20, 30] = (none, some 1) ∧
      find_file_weather_ids 10 10 [1, 2, 3] [10, 20, 30] = none := by
  decide

/-- C2 counterexample: the claim says an exact match of the search timestamp
at either sequence boundary returns that boundary index as both lower and
upper.  At the first boundary of `[10, 20, 30]` with search timestamp `10`
the code instead returns `(none, some 1)`, not `(some 0, some 0)`. -/
theorem C2_first_boundary_counterexample :
    b_search 10 [10, 20, 30] = (none, some 1) ∧
      ((none, some 1) : Option Nat × Option Nat) ≠ (some 0, some 0) := by
  decide

/-- C2 (amended): `b_search` edge cases as the code implements them — empty
sequence gives both indices absent; a single-element sequence does an
equality check and otherwise gives a one-sided result (lower only if the
element is smaller than the search timestamp, upper only if larger); and an
exact match at the last element short-circuits to that index as both lower
and upper.  (Only the last boundary short-circuits; a first-element exact
match is left to the general search, see the counterexample.) -/
theorem C2_edge_cases :
    (∀ t : Int, b_search t [] = (none, none)) ∧
    (∀ t x : Int, x = t → b_search t [x] = (some 0, some 0)) ∧
    (∀ t x : Int, x < t → b_search t [x] = (some 0, none)) ∧
    (∀ t x : Int, t < x → b_search t [x] = (none, some 0)) ∧
    (∀ (ts : List Int) (t : Int), 2 ≤ ts.length → nth ts (ts.length - 1) = t →
      b_search t ts = (some (ts.length - 1), some (ts.length - 1))) := by
  refine ⟨fun t => rfl, fun t x h => ?_, fun t x h => ?_, fun t x h => ?_,
    fun ts t h2 he => ?_⟩
  · subst h
    simp [b_search, nth]
  · have h1 : x ≠ t := ne_of_lt h
    simp [b_search, nth, h1, h]
  · have h1 : x ≠ t := (ne_of_lt h).symm
    have h2 : ¬ x < t := not_lt.mpr (le_of_lt h)
    simp [b_search, nth, h1, h2]
  · unfold b_search
    rw [if_neg (by omega), if_neg (by omega), if_pos he]

/-- C2 witness: the edge-case theorem applied at concrete inputs — the exact
match at the last element of `[1, 5]` and the three singleton cases. -/
theorem C2_edge_cases_witness :
    b_search 5 [1, 5] = (some 1, some 1) ∧ b_search 7 [7] = (some 0, some 0) ∧
      b_search 8 [7] = (some 0, none) ∧ b_search 6 [7] = (none, some 0) := by
  refine ⟨?_, ?_, ?_, ?_⟩
  · simpa using C2_edge_cases.2.2.2.2 [1, 5] 5 (by decide) (by decide)
  · exact C2_edge_cases.2.1 7 7 rfl
  · exact C2_edge_cases.2.2.1 8 7 (by decide)
  · exact C2_edge_cases.2.2.2.1 6 7 (by decide)

/-- C3 counterexample: the claim asserts that whenever
`find_file_weather_ids` returns without raising, the returned pair satisfies
`min_weather_id ≤ max_weather_id`.  For the inverted capture window
`start = 9`, `finish = 1` over timestamps `[0, 10]` (ids `[1, 2]`), the
internal guard passes and the function returns the inverted pair `(2, 1)`. -/
theorem C3_inverted_window_counterexample :
    find_file_weather_ids 9 1 [1, 2] [0, 10] = some (2, 1) ∧ ¬ (2 : Nat) ≤ 1 := by
  decide

/-- C3 (amended): for the scenario of the claim — file start `10:00`, finish
`10:05` (600 and 605 minutes), weather readings at `09:58` (id 1), `10:02`
(id 2), `10:10` (id 3) — the function returns `(1, 2)` or `(2, 2)`; and in
general, for inputs satisfying the monotonic-pairing invariant **with a
non-inverted window** (`start_ts ≤ finish_ts`, the restriction the
counterexample forces), whenever the function returns without raising the
pair satisfies `min_weather_id ≤ max_weather_id`. -/
theorem C3_scenario_and_ordering :
    (find_file_weather_ids 600 605 [1, 2, 3] [598, 602, 610] = some (1, 2) ∨
      find_file_weather_ids 600 605 [1, 2, 3] [598, 602, 610] = some (2, 2)) ∧
    (∀ (start_ts finish_ts : Int) (ids : List Nat) (ts : List Int) (a b : Nat),
      ts.Pairwise (· < ·) → ids.Pairwise (· ≤ ·) → start_ts ≤ finish_ts →
      find_file_weather_ids start_ts finish_ts ids ts = some (a, b) → a ≤ b) := by
  refine ⟨Or.inl (by decide), ?_⟩
  intro start_ts finish_ts ids ts a b _ hids hsf hres
  exact find_file_weather_ids_ordered hids hsf hres

/-- C3 witness: the general ordering statement applied to the concrete
scenario input, all hypotheses discharged by evaluation. -/
theorem C3_scenario_and_ordering_witness : (1 : Nat) ≤ 2 :=
  C3_scenario_and_ordering.2 600 605 [1, 2, 3] [598, 602, 610] 1 2
    (by decide) (by decide) (by decide) (by decide)

/-- C10: the nearest-neighbour tie-break is asymmetric.  Whenever both
searches return present pairs, the guard passes, and each endpoint is exactly
equidistant from its two surrounding weather timestamps, the start endpoint
resolves to the lower surrounding index `ms` (the earlier, smaller id) while
the finish endpoint resolves to the upper surrounding index `mxf` (the later,
larger id): the strict `>` comparison keeps the minimum on ties for the
start, the strict `<` comparison keeps the maximum on ties for the finish. -/
theorem C10_tie_break_asymmetric :
    ∀ (start_ts finish_ts : Int) (ids : List Nat) (ts : List Int)
      (ms mxs mf mxf : Nat),
      ids.length = ts.length →
      b_search start_ts ts = (some ms, some mxs) →
      b_search finish_ts ts = (some mf, some mxf) →
      ¬ mf < ms →
      (start_ts - nth ts ms).natAbs = (start_ts - nth ts mxs).natAbs →
      (finish_ts - nth ts mf).natAbs = (finish_ts - nth ts mxf).natAbs →
      find_file_weather_ids start_ts finish_ts ids ts =
        some (nthId ids ms, nthId ids mxf) := by
  intro start_ts finish_ts ids ts ms mxs mf mxf hlen hb1 hb2 hguard hA hB
  unfold find_file_weather_ids
  rw [if_pos hlen, hb1, hb2]
  show (if mf < ms then none
    else some (nthId ids
        (if (start_ts - nth ts ms).natAbs > (start_ts - nth ts mxs).natAbs
          then mxs else ms),
      nthId ids
        (if (finish_ts - nth ts mf).natAbs < (finish_ts - nth ts mxf).natAbs
          then mf else mxf))) = some (nthId ids ms, nthId ids mxf)
  rw [if_neg hguard, if_neg (by omega), if_neg (by omega)]

/-- C10 witness: with timestamps `[0, 10]`, ids `[1, 2]` and both endpoints at
the midpoint `5`, the start endpoint resolves to id 1 (earlier) and the
finish endpoint to id 2 (later). -/
theorem C10_tie_break_asymmetric_witness :
    find_file_weather_ids 5 5 [1, 2] [0, 10] = some (1, 2) := by
  have h := C10_tie_break_asymmetric 5 5 [1, 2] [0, 10] 0 1 0 1
    (by decide) (by decide) (by decide) (by decide) (by decide) (by decide)
  simpa [nthId] using h

example : get_ordered_weather_ids_timestamps [(2, 20), (1, 10), (3, 30)] =
    ([1, 2, 3], [10, 20, 30]) := by decide

/-- C4: for every weather map with distinct ids in which strictly larger ids
carry strictly later timestamps, `get_ordered_weather_ids_timestamps`
returns two parallel ascending tuples of the same length as the map such
that position `i` of the id tuple and position `i` of the timestamp tuple
form exactly one of the map's id/timestamp pairs — the i-th smallest id
corresponds to the i-th smallest timestamp. -/
theorem C4_ordered_ids_timestamps_pairing (m : List (Nat × Int))
    (hkeys : (m.map Prod.fst).Nodup)
    (hmono : ∀ p ∈ m, ∀ q ∈ m, p.1 < q.1 → p.2 < q.2) :
    (get_ordered_weather_ids_timestamps m).1.Sorted (· ≤ ·) ∧
    (get_ordered_weather_ids_timestamps m).2.Sorted (· ≤ ·) ∧
    (get_ordered_weather_ids_timestamps m).1.length = m.length ∧
    (get_ordered_weather_ids_timestamps m).2.length = m.length ∧
    ∀ i, i < m.length →
      ((get_ordered_weather_ids_timestamps m).1.getD i 0,
        (get_ordered_weather_ids_timestamps m).2.getD i 0) ∈ m := by
  have hperm : (List.insertionSort keyLe m).Perm m := List.perm_insertionSort keyLe m
  have hsorted : List.Sorted keyLe (List.insertionSort keyLe m) :=
    List.sorted_insertionSort keyLe m
  have hfst_sorted : List.Sorted (· ≤ ·) ((List.insertionSort keyLe m).map Prod.fst) :=
    List.pairwise_map.mpr hsorted
  have hnodup_s : ((List.insertionSort keyLe m).map Prod.fst).Nodup :=
    ((hperm.map Prod.fst).nodup_iff).mpr hkeys
  have hsnd_pairs :
      List.Pairwise (fun p q : Nat × Int => p.2 ≤ q.2) (List.insertionSort keyLe m) := by
    have hcomb :
        List.Pairwise (fun p q : Nat × Int => keyLe p q ∧ p.1 ≠ q.1)
          (List.insertionSort keyLe m) :=
      hsorted.and (List.pairwise_map.mp hnodup_s)
    refine List.Pairwise.imp_of_mem ?_ hcomb
    intro p q hp hq hr
    exact le_of_lt (hmono p (hperm.mem_iff.mp hp) q (hperm.mem_iff.mp hq)
      (lt_of_le_of_ne hr.1 hr.2))
  have hsnd_sorted : List.Sorted (· ≤ ·) ((List.insertionSort keyLe m).map Prod.snd) :=
    List.pairwise_map.mpr hsnd_pairs
  have e1 : List.insertionSort (· ≤ ·) (m.map Prod.fst) =
      (List.insertionSort keyLe m).map Prod.fst :=
    List.eq_of_perm_of_sorted
      ((List.perm_insertionSort _ _).trans (hperm.map Prod.fst).symm)
      (List.sorted_insertionSort _ _) hfst_sorted
  have e2 : List.insertionSort (· ≤ ·) (m.map Prod.snd) =
      (List.insertionSort keyLe m).map Prod.snd :=
    List.eq_of_perm_of_sorted
      ((List.perm_insertionSort _ _).trans (hperm.map Prod.snd).symm)
      (List.sorted_insertionSort _ _) hsnd_sorted
  have hslen : (List.insertionSort keyLe m).length = m.length := hperm.length_eq
  unfold get_ordered_weather_ids_timestamps
  rw [e1, e2]
  refine ⟨hfst_sorted, hsnd_sorted, by simp [hslen], by simp [hslen], ?_⟩
  intro i hi
  have hi' : i < (List.insertionSort keyLe m).length := by omega
  have hif : i < ((List.insertionSort keyLe m).map Prod.fst).length := by
    simpa using hi'
  have his : i < ((List.insertionSort keyLe m).map Prod.snd).length := by
    simpa using hi'
  rw [List.getD_eq_getElem _ _ hif, List.getD_eq_getElem _ _ his,
    List.getElem_map, List.getElem_map]
  have : (List.insertionSort keyLe m)[i] ∈ List.insertionSort keyLe m :=
    List.getElem_mem hi'
  simpa using hperm.mem_iff.mp this

/-- C4 witness: the pairing theorem applied at the concrete two-entry map
`{2: 20, 1: 10}`, showing position 0 of the two sorted tuples is one of the
map's pairs. -/
theorem C4_ordered_ids_timestamps_pairing_witness :
    ((get_ordered_weather_ids_timestamps [(2, 20), (1, 10)]).1.getD 0 0,
      (get_ordered_weather_ids_timestamps [(2, 20), (1, 10)]).2.getD 0 0) ∈
      ([(2, 20), (1, 10)] : List (Nat × Int)) :=
  (C4_ordered_ids_timestamps_pairing [(2, 20), (1, 10)] (by decide)
    (by decide)).2.2.2.2 0 (by decide)

theorem isLeap_iff (y : Nat) :
    isLeap y = true ↔ ((y % 4 = 0 ∧ ¬ y % 100 = 0) ∨ y % 400 = 0) := by
  simp [isLeap]

theorem leapsBefore_succ (y : Nat) :
    leapsBefore (y + 1) = leapsBefore y + (if isLeap (y + 1) then 1 else 0) := by
  by_cases hc : ((y + 1) % 4 = 0 ∧ ¬ (y + 1) % 100 = 0) ∨ (y + 1) % 400 = 0
  · have hL : isLeap (y + 1) = true := (isLeap_iff (y + 1)).mpr hc
    rw [hL, if_pos rfl]
    unfold leapsBefore
    omega
  · have hL : isLeap (y + 1) = false := by
      cases hX : isLeap (y + 1) with
      | false => rfl
      | true => exact absurd ((isLeap_iff (y + 1)).mp hX) hc
    rw [hL, if_neg Bool.false_ne_true]
    unfold leapsBefore
    omega

theorem dim_pos (leap : Bool) (m : Nat) (h1 : 1 ≤ m) (h2 : m ≤ 12) :
    1 ≤ dim leap m := by
  interval_cases m <;> cases leap <;> decide

theorem dbm_succ (leap : Bool) (m : Nat) (h : 1 ≤ m) :
    daysBeforeMonth leap (m + 1) = daysBeforeMonth leap m + dim leap m := by
  cases m with
  | zero => omega
  | succ k => rfl

theorem dbm_le_succ (leap : Bool) (m : Nat) :
    daysBeforeMonth leap m ≤ daysBeforeMonth leap (m + 1) := by
  cases m with
  | zero => exact Nat.zero_le _
  | succ k =>
    rw [dbm_succ leap (k + 1) (by omega)]
    omega

theorem dbm_mono (leap : Bool) (m1 m2 : Nat) (h : m1 ≤ m2) :
    daysBeforeMonth leap m1 ≤ daysBeforeMonth leap m2 := by
  induction m2, h using Nat.le_induction with
  | base => exact Nat.le_refl _
  | succ n hn ih => exact Nat.le_trans ih (dbm_le_succ leap n)

theorem dbm12_dim (leap : Bool) :
    daysBeforeMonth leap 12 + 31 = 365 + (if leap then 1 else 0) := by
  cases leap <;> rfl

theorem dbm_d_le (leap : Bool) (m d : Nat) (h1 : 1 ≤ m) (h2 : m ≤ 12)
    (h3 : d ≤ dim leap m) :
    daysBeforeMonth leap m + d ≤ 365 + (if leap then 1 else 0) := by
  have key : daysBeforeMonth leap m + dim leap m ≤ 365 + (if leap then 1 else 0) := by
    interval_cases m <;> cases leap <;> decide
  omega

theorem leapsBefore_unfold (y : Nat) (h : 1 ≤ y) :
    leapsBefore y = leapsBefore (y - 1) + (if isLeap y then 1 else 0) := by
  have := leapsBefore_succ (y - 1)
  rw [Nat.sub_add_cancel h] at this
  exact this

theorem ord_nextDay (dt : Date) (h : valid_ymd dt) :
    ordOf (nextDay dt) = ordOf dt + 1 := by
  obtain ⟨hy, hm1, hm2, hd1, hd2⟩ := h
  unfold nextDay
  by_cases hlt : dt.d < dim (isLeap dt.y) dt.m
  · rw [if_pos hlt]
    simp only [ordOf]
    omega
  · rw [if_neg hlt]
    have hde : dt.d = dim (isLeap dt.y) dt.m := by omega
    by_cases hm : dt.m < 12
    · rw [if_pos hm]
      simp only [ordOf]
      rw [dbm_succ (isLeap dt.y) dt.m hm1]
      omega
    · rw [if_neg hm]
      have hm12 : dt.m = 12 := by omega
      have h1 : daysBeforeMonth (isLeap (dt.y + 1)) 1 = 0 := rfl
      have h2 := leapsBefore_unfold dt.y hy
      have h3 := dbm12_dim (isLeap dt.y)
      have h4 : dim (isLeap dt.y) 12 = 31 := by cases isLeap dt.y <;> rfl
      rw [hm12] at hde
      rw [h4] at hde
      simp only [ordOf, h1, hm12, Nat.add_sub_cancel]
      cases hL : isLeap dt.y <;>
        simp only [hL, if_pos rfl, if_neg Bool.false_ne_true] at h2 h3 <;> omega

theorem valid_nextDay (dt : Date) (h : valid_ymd dt) : valid_ymd (nextDay dt) := by
  obtain ⟨hy, hm1, hm2, hd1, hd2⟩ := h
  unfold nextDay
  by_cases hlt : dt.d < dim (isLeap dt.y) dt.m
  · rw [if_pos hlt]
    unfold valid_ymd
    simp only []
    exact ⟨hy, hm1, hm2, by omega, by omega⟩
  · rw [if_neg hlt]
    by_cases hm : dt.m < 12
    · rw [if_pos hm]
      unfold valid_ymd
      simp only []
      exact ⟨hy, by omega, by omega, Nat.le_refl _,
        dim_pos (isLeap dt.y) (dt.m + 1) (by omega) (by omega)⟩
    · rw [if_neg hm]
      unfold valid_ymd
      simp only []
      exact ⟨by omega, by omega, by omega, Nat.le_refl _,
        dim_pos (isLeap (dt.y + 1)) 1 (by omega) (by omega)⟩

theorem fYear_mono (a b : Nat) (h : a ≤ b) :
    365 * a + leapsBefore a ≤ 365 * b + leapsBefore b := by
  induction b, h using Nat.le_induction with
  | base => exact Nat.le_refl _
  | succ n hn ih =>
    have hstep := leapsBefore_succ n
    refine Nat.le_trans ih ?_
    cases hL : isLeap (n + 1) <;> simp [hL] at hstep <;> omega

theorem ordOf_lt_of_dateLt (a b : Date) (ha : valid_ymd a) (hb : valid_ymd b)
    (h : dateLt a b) : ordOf a < ordOf b := by
  obtain ⟨hay, ham1, ham2, had1, had2⟩ := ha
  obtain ⟨hby, hbm1, hbm2, hbd1, hbd2⟩ := hb
  rcases h with hy | ⟨hyeq, hrest⟩
  · have hub : ordOf a ≤ 365 * a.y + leapsBefore a.y := by
      unfold ordOf
      have h1 := dbm_d_le (isLeap a.y) a.m a.d ham1 ham2 had2
      have h2 := leapsBefore_unfold a.y hay
      cases hL : isLeap a.y <;> simp [hL] at h1 h2 <;> omega
    have hlb : 365 * (b.y - 1) + leapsBefore (b.y - 1) + 1 ≤ ordOf b := by
      unfold ordOf
      omega
    have hmono := fYear_mono a.y (b.y - 1) (by omega)
    omega
  · rcases hrest with hmlt | ⟨hmeq, hdlt⟩
    · have h1 : daysBeforeMonth (isLeap a.y) a.m + a.d ≤
          daysBeforeMonth (isLeap a.y) (a.m + 1) := by
        rw [dbm_succ (isLeap a.y) a.m ham1]
        omega
      have h2 : daysBeforeMonth (isLeap a.y) (a.m + 1) ≤
          daysBeforeMonth (isLeap a.y) b.m := by
        rw [hyeq]
        exact dbm_mono (isLeap b.y) (a.m + 1) b.m (by omega)
      unfold ordOf
      rw [hyeq]
      rw [hyeq] at h1 h2
      omega
    · unfold ordOf
      rw [hyeq, hmeq]
      omega

theorem dateLt_connex (a b : Date) : dateLt a b ∨ a = b ∨ dateLt b a := by
  obtain ⟨ay, am, ad⟩ := a
  obtain ⟨yb, mb, db⟩ := b
  unfold dateLt
  simp only [Date.mk.injEq]
  omega

theorem dateLe_iff_ord (a b : Date) (ha : valid_ymd a) (hb : valid_ymd b) :
    dateLe a b ↔ ordOf a ≤ ordOf b := by
  constructor
  · intro h
    rcases h with hlt | rfl
    · exact Nat.le_of_lt (ordOf_lt_of_dateLt a b ha hb hlt)
    · exact Nat.le_refl _
  · intro h
    rcases dateLt_connex a b with hlt | heq | hgt
    · exact Or.inl hlt
    · exact Or.inr heq
    · exact absurd (ordOf_lt_of_dateLt b a hb ha hgt) (by omega)

theorem dateLt_iff_ord (a b : Date) (ha : valid_ymd a) (hb : valid_ymd b) :
    dateLt a b ↔ ordOf a < ordOf b := by
  constructor
  · exact ordOf_lt_of_dateLt a b ha hb
  · intro h
    rcases dateLt_connex a b with hlt | rfl | hgt
    · exact hlt
    · omega
    · exact absurd (ordOf_lt_of_dateLt b a hb ha hgt) (by omega)

example : validate_date "2020-02-29" = true := by decide

example : validate_date "2021-02-29" = false := by decide

example : validate_date "2020-1-01" = false := by decide

example : validate_date "garbage" = false := by decide

example : parseDate "2021-12-31" = some ⟨2021, 12, 31⟩ := by decide

theorem dim_le_31 (leap : Bool) (m : Nat) : dim leap m ≤ 31 := by
  unfold dim
  split <;> (cases leap <;> decide)

theorem dVal_dChar_mod (k : Nat) : dVal (dChar (k % 10)) = k % 10 := by
  have h : k % 10 ≤ 9 := by omega
  revert h
  generalize k % 10 = r
  intro h
  interval_cases r <;> decide

theorem isDigitChar_dChar_mod (k : Nat) : isDigitChar (dChar (k % 10)) = true := by
  have h : k % 10 ≤ 9 := by omega
  revert h
  generalize k % 10 = r
  intro h
  interval_cases r <;> decide

/-- Round trip: formatting a valid four-digit-year date and parsing it back
recovers the date. -/
theorem parseDate_formatDate (dt : Date) (hv : valid_ymd dt)
    (hy1 : 1000 ≤ dt.y) (hy2 : dt.y ≤ 9999) :
    parseDate (formatDate dt) = some dt := by
  obtain ⟨hy0, hm1, hm2, hd1, hd2⟩ := hv
  have hdle : dt.d ≤ 31 := Nat.le_trans hd2 (dim_le_31 _ _)
  simp only [formatDate, parseDate]
  rw [if_pos ⟨trivial, trivial, isDigitChar_dChar_mod _, isDigitChar_dChar_mod _,
    isDigitChar_dChar_mod _, isDigitChar_dChar_mod _, isDigitChar_dChar_mod _,
    isDigitChar_dChar_mod _, isDigitChar_dChar_mod _, isDigitChar_dChar_mod _⟩]
  simp only [dVal_dChar_mod]
  have hE : 1000 * (dt.y / 1000 % 10) + 100 * (dt.y / 100 % 10) +
      10 * (dt.y / 10 % 10) + dt.y % 10 = dt.y := by omega
  have hM : 10 * (dt.m / 10 % 10) + dt.m % 10 = dt.m := by omega
  have hD : 10 * (dt.d / 10 % 10) + dt.d % 10 = dt.d := by omega
  rw [hE, hM, hD]
  rw [if_pos ⟨hy1, hm1, hm2, hd1, hd2⟩]

theorem dVal_le_of_digit (c : Char) (h : isDigitChar c = true) : dVal c ≤ 9 := by
  simp only [isDigitChar, Bool.and_eq_true, decide_eq_true_eq] at h
  unfold dVal
  omega

/-- Every date produced by `parseDate` is a valid calendar date with a
four-digit year. -/
theorem parseDate_valid {s : String} {dt : Date} (h : parseDate s = some dt) :
    valid_ymd dt ∧ 1000 ≤ dt.y ∧ dt.y ≤ 9999 := by
  unfold parseDate at h
  split at h
  on_goal 2 => exact absurd h (by simp)
  rename_i y1 y2 y3 y4 s1 m1 m2 s2 d1 d2 heq
  split at h
  on_goal 2 => exact absurd h (by simp)
  rename_i hdig
  split at h
  on_goal 2 => exact absurd h (by simp)
  rename_i hok
  obtain ⟨hok1, hok2, hok3, hok4, hok5⟩ := hok
  obtain ⟨hs1, hs2, hd1, hd2, hd3, hd4, hd5, hd6, hd7, hd8⟩ := hdig
  have hb1 := dVal_le_of_digit y1 hd1
  have hb2 := dVal_le_of_digit y2 hd2
  have hb3 := dVal_le_of_digit y3 hd3
  have hb4 := dVal_le_of_digit y4 hd4
  obtain rfl : (⟨1000 * dVal y1 + 100 * dVal y2 + 10 * dVal y3 + dVal y4,
      10 * dVal m1 + dVal m2, 10 * dVal d1 + dVal d2⟩ : Date) = dt :=
    Option.some_injective _ h
  simp only [valid_ymd]
  refine ⟨⟨by omega, hok2, hok3, hok4, hok5⟩, by omega, by omega⟩

theorem dateLe_y_le (a b : Date) (h : dateLe a b) : a.y ≤ b.y := by
  rcases h with hlt | rfl
  · rcases hlt with hy | ⟨hyeq, _⟩ <;> omega
  · exact Nat.le_refl _

theorem nextDay_y_ge (dt : Date) : dt.y ≤ (nextDay dt).y := by
  unfold nextDay
  split_ifs <;> simp

theorem ordOf_inj (a b : Date) (ha : valid_ymd a) (hb : valid_ymd b)
    (h : ordOf a = ordOf b) : a = b := by
  rcases dateLt_connex a b with hlt | heq | hgt
  · exact absurd (ordOf_lt_of_dateLt a b ha hb hlt) (by omega)
  · exact heq
  · exact absurd (ordOf_lt_of_dateLt b a hb ha hgt) (by omega)

theorem dateLt_asymm_lex (a b : Date) (h : dateLt a b) : ¬ dateLt b a := by
  unfold dateLt at h ⊢
  omega

theorem dateLt_irrefl_lex (a : Date) : ¬ dateLt a a := by
  unfold dateLt
  omega

example : generate_dates "2021-02-27" "2021-03-02" =
    some ["2021-02-27", "2021-02-28", "2021-03-01", "2021-03-02"] := by decide

example : generate_dates "2021-03-02" "2021-02-27" =
    some ["2021-02-27", "2021-02-28", "2021-03-01", "2021-03-02"] := by decide

example : generate_dates "2020-02-28" "2020-03-01" =
    some ["2020-02-28", "2020-02-29", "2020-03-01"] := by decide

example : generate_dates "9999-12-31" "9999-12-31" = none := by decide

theorem genLoopDates_nil (fuel : Nat) (cur last : Date) (h : ¬ dateLe cur last) :
    genLoopDates fuel cur last = some [] := by
  cases fuel with
  | zero => rfl
  | succ fuel =>
    rw [genLoopDates, if_neg h]

/-- Every valid date with a four-digit year is at most the calendar maximum
9999-12-31 in `datetime` order. -/
theorem dateLe_max (dt : Date) (h : valid_ymd dt) (hy : dt.y ≤ 9999) :
    dateLe dt ⟨9999, 12, 31⟩ := by
  obtain ⟨h1, h2, h3, h4, h5⟩ := h
  have hd : dt.d ≤ 31 := Nat.le_trans h5 (dim_le_31 (isLeap dt.y) dt.m)
  rcases Nat.lt_or_ge dt.y 9999 with hylt | hyge
  · exact Or.inl (Or.inl hylt)
  · have hy9 : dt.y = 9999 := Nat.le_antisymm hy hyge
    rcases Nat.lt_or_ge dt.m 12 with hmlt | hmge
    · exact Or.inl (Or.inr ⟨hy9, Or.inl hmlt⟩)
    · have hm12 : dt.m = 12 := Nat.le_antisymm h3 hmge
      rcases Nat.lt_or_ge dt.d 31 with hdlt | hdge
      · exact Or.inl (Or.inr ⟨hy9, Or.inr ⟨hm12, hdlt⟩⟩)
      · have hd31 : dt.d = 31 := Nat.le_antisymm hd hdge
        refine Or.inr ?_
        obtain ⟨y, m, d⟩ := dt
        rw [Date.mk.injEq]
        exact ⟨hy9, hm12, hd31⟩

/-- A date weakly below a valid non-maximal date is itself non-maximal. -/
theorem ne_max_of_le_ne_max (cur last : Date) (hvc : valid_ymd cur)
    (hvl : valid_ymd last) (hyl : last.y ≤ 9999)
    (hnm : last ≠ ⟨9999, 12, 31⟩) (hle : dateLe cur last) :
    cur ≠ ⟨9999, 12, 31⟩ := by
  intro hc
  apply hnm
  have hord : ordOf cur ≤ ordOf last := (dateLe_iff_ord cur last hvc hvl).mp hle
  have h1 : ordOf last ≤ ordOf (⟨9999, 12, 31⟩ : Date) :=
    (dateLe_iff_ord last ⟨9999, 12, 31⟩ hvl (by decide)).mp
      (dateLe_max last hvl hyl)
  rw [hc] at hord
  exact ordOf_inj last ⟨9999, 12, 31⟩ hvl (by decide) (Nat.le_antisymm h1 hord)

/-- Full characterisation of the generation loop on valid dates with enough
fuel, provided the last date stays below the calendar maximum: no overflow
occurs, and the produced list starts at the current date, ends at the last
date, chains through calendar successors, has exactly the inclusive day
count, and contains only canonical (validate_date) strings. -/
theorem genLoopDates_spec (last : Date) (hvl : valid_ymd last) (hyl : last.y ≤ 9999)
    (hnm : last ≠ ⟨9999, 12, 31⟩) :
    ∀ fuel cur, valid_ymd cur → 1000 ≤ cur.y → dateLe cur last →
      ordOf last + 1 - ordOf cur ≤ fuel →
      ∃ l, genLoopDates fuel cur last = some l ∧
        l.head? = some (formatDate cur) ∧
        l.getLast? = some (formatDate last) ∧
        List.Chain' chainStep l ∧
        l.length = ordOf last + 1 - ordOf cur ∧
        (∀ s ∈ l, validate_date s = true) := by
  intro fuel
  induction fuel with
  | zero =>
    intro cur hvc hyc hle hfuel
    have := (dateLe_iff_ord cur last hvc hvl).mp hle
    omega
  | succ fuel ih =>
    intro cur hvc hyc hle hfuel
    have hcy : cur.y ≤ 9999 := Nat.le_trans (dateLe_y_le cur last hle) hyl
    have hord : ordOf cur ≤ ordOf last := (dateLe_iff_ord cur last hvc hvl).mp hle
    have hrt : parseDate (formatDate cur) = some cur :=
      parseDate_formatDate cur hvc hyc hcy
    have hne : cur ≠ ⟨9999, 12, 31⟩ :=
      ne_max_of_le_ne_max cur last hvc hvl hyl hnm hle
    have haod : addOneDay cur = some (nextDay cur) := by
      simp only [addOneDay, if_neg hne]
    by_cases hnext : dateLe (nextDay cur) last
    · have hnv := valid_nextDay cur hvc
      have hny : 1000 ≤ (nextDay cur).y := Nat.le_trans hyc (nextDay_y_ge cur)
      have hno : ordOf (nextDay cur) = ordOf cur + 1 := ord_nextDay cur hvc
      obtain ⟨l', hl', ihh, ihl, ihc, ihlen, ihv⟩ :=
        ih (nextDay cur) hnv hny hnext (by omega)
      obtain ⟨r0, rtl, rfl⟩ : ∃ r0 rtl, l' = r0 :: rtl := by
        cases l' with
        | nil => exact absurd ihh (by simp)
        | cons r0 rtl => exact ⟨r0, rtl, rfl⟩
      have hr0 : r0 = formatDate (nextDay cur) := by
        simpa using ihh
      have hstep : genLoopDates (fuel + 1) cur last =
          some (formatDate cur :: r0 :: rtl) := by
        rw [genLoopDates, if_pos hle]
        simp only [haod, hl']
      refine ⟨formatDate cur :: r0 :: rtl, hstep, by simp, ?_, ?_, ?_, ?_⟩
      · rw [List.getLast?_cons_cons]
        exact ihl
      · rw [List.chain'_cons]
        exact ⟨⟨cur, hrt, by rw [hr0]⟩, ihc⟩
      · simp only [List.length_cons] at ihlen ⊢
        omega
      · intro s hs
        rcases List.mem_cons.mp hs with rfl | hs'
        · simp [validate_date, hrt]
        · exact ihv s hs'
    · have hnlt : ordOf last < ordOf (nextDay cur) := by
        by_contra hcon
        push_neg at hcon
        exact hnext ((dateLe_iff_ord (nextDay cur) last (valid_nextDay cur hvc)
          hvl).mpr hcon)
      have hno : ordOf (nextDay cur) = ordOf cur + 1 := ord_nextDay cur hvc
      have hcl : cur = last := ordOf_inj cur last hvc hvl (by omega)
      subst hcl
      have hstep : genLoopDates (fuel + 1) cur cur = some [formatDate cur] := by
        rw [genLoopDates, if_pos hle]
        simp only [haod, genLoopDates_nil fuel (nextDay cur) cur hnext]
      refine ⟨[formatDate cur], hstep, by simp, by simp,
        List.chain'_singleton _, ?_, ?_⟩
      · simp only [List.length_singleton]
        omega
      · intro s hs
        obtain rfl := List.mem_singleton.mp hs
        simp [validate_date, hrt]

/-- With the later date equal to the calendar maximum, the loop always
reaches 9999-12-31, appends it, and then the day addition overflows
`datetime.max`, so the whole call raises `OverflowError`. -/
theorem genLoopDates_overflow :
    ∀ fuel cur, valid_ymd cur → dateLe cur ⟨9999, 12, 31⟩ →
      ordOf (⟨9999, 12, 31⟩ : Date) + 1 - ordOf cur ≤ fuel →
      genLoopDates fuel cur ⟨9999, 12, 31⟩ = none := by
  intro fuel
  induction fuel with
  | zero =>
    intro cur hvc hle hfuel
    have := (dateLe_iff_ord cur ⟨9999, 12, 31⟩ hvc (by decide)).mp hle
    omega
  | succ fuel ih =>
    intro cur hvc hle hfuel
    by_cases hc : cur = ⟨9999, 12, 31⟩
    · rw [genLoopDates, if_pos hle]
      simp only [addOneDay, if_pos hc]
    · have haod : addOneDay cur = some (nextDay cur) := by
        simp only [addOneDay, if_neg hc]
      have hord : ordOf cur ≤ ordOf (⟨9999, 12, 31⟩ : Date) :=
        (dateLe_iff_ord cur ⟨9999, 12, 31⟩ hvc (by decide)).mp hle
      have hlt : ordOf cur < ordOf (⟨9999, 12, 31⟩ : Date) := by
        rcases Nat.lt_or_ge (ordOf cur) (ordOf (⟨9999, 12, 31⟩ : Date)) with h | h
        · exact h
        · exact absurd
            (ordOf_inj cur ⟨9999, 12, 31⟩ hvc (by decide) (by omega)) hc
      have hno : ordOf (nextDay cur) = ordOf cur + 1 := ord_nextDay cur hvc
      have hnext : dateLe (nextDay cur) ⟨9999, 12, 31⟩ :=
        (dateLe_iff_ord (nextDay cur) ⟨9999, 12, 31⟩
          (valid_nextDay cur hvc) (by decide)).mpr (by omega)
      rw [genLoopDates, if_pos hle]
      simp only [haod, ih (nextDay cur) (valid_nextDay cur hvc) hnext (by omega)]

theorem generate_dates_eq {a b : String} {da db : Date}
    (hpa : parseDate a = some da) (hpb : parseDate b = some db) :
    generate_dates a b =
      if dateLt da db then genLoopDates (ordOf db + 1 - ordOf da) da db
      else genLoopDates (ordOf da + 1 - ordOf db) db da := by
  unfold generate_dates
  rw [hpa, hpb]

/-- C8 counterexample: the claim says that for every pair of valid dates
`generate_dates` returns the inclusive ascending calendar-day list.  Both
`"9999-12-30"` and `"9999-12-31"` pass `validate_date`, yet
`generate_dates "9999-12-30" "9999-12-31"` raises `OverflowError` — the
loop appends the final day and then computes `cur_date + timedelta(days=1)`
past `datetime.max` — and returns no list at all. -/
theorem C8_overflow_counterexample :
    validate_date "9999-12-30" = true ∧ validate_date "9999-12-31" = true ∧
    generate_dates "9999-12-30" "9999-12-31" = none := by decide

/-- C8 (amended): for every pair of valid dates whose later date is strictly
before the calendar maximum 9999-12-31, `generate_dates` is independent of
argument order and returns exactly the inclusive ascending calendar-day
sequence from the earlier to the later date: nonempty, starting at the
earlier date, ending at the later date, each string followed by the
rendering of its calendar successor, with the inclusive day count as
length, every element a canonical date string.  When the later date is
9999-12-31 itself, the day addition overflows `datetime.max` and
`generate_dates` raises `OverflowError` instead of returning a list — again
for either argument order. -/
theorem C8_generate_dates_inclusive_symmetric :
    ∀ (a b : String) (da db : Date),
      parseDate a = some da → parseDate b = some db →
      ((if dateLt da db then db else da) ≠ ⟨9999, 12, 31⟩ →
        ∃ l, generate_dates a b = some l ∧ generate_dates b a = some l ∧
          l ≠ [] ∧
          l.head? = some (formatDate (if dateLt da db then da else db)) ∧
          l.getLast? = some (formatDate (if dateLt da db then db else da)) ∧
          List.Chain' chainStep l ∧
          l.length = ordOf (if dateLt da db then db else da) + 1 -
            ordOf (if dateLt da db then da else db) ∧
          ∀ s ∈ l, validate_date s = true) ∧
      ((if dateLt da db then db else da) = ⟨9999, 12, 31⟩ →
        generate_dates a b = none ∧ generate_dates b a = none) := by
  intro a b da db hpa hpb
  obtain ⟨hva, hya1, hya2⟩ := parseDate_valid hpa
  obtain ⟨hvb, hyb1, hyb2⟩ := parseDate_valid hpb
  have e1 := generate_dates_eq hpa hpb
  have e2 := generate_dates_eq hpb hpa
  constructor
  · intro hnm
    by_cases hlt : dateLt da db
    · rw [if_pos hlt] at hnm
      rw [if_pos hlt] at e1
      rw [if_neg (dateLt_asymm_lex da db hlt)] at e2
      obtain ⟨l, hl, sh, sl, sc, slen, sv⟩ :=
        genLoopDates_spec db hvb hyb2 hnm (ordOf db + 1 - ordOf da) da hva hya1
          (Or.inl hlt) (Nat.le_refl _)
      simp only [if_pos hlt]
      refine ⟨l, by rw [e1]; exact hl, by rw [e2]; exact hl, ?_, sh, sl, sc,
        slen, sv⟩
      intro hnil
      rw [hnil] at sh
      exact absurd sh (by simp)
    · rcases dateLt_connex da db with hc | hc | hc
      · exact absurd hc hlt
      · subst hc
        rw [if_neg hlt] at hnm
        rw [if_neg hlt] at e1 e2
        obtain ⟨l, hl, sh, sl, sc, slen, sv⟩ :=
          genLoopDates_spec da hva hya2 hnm (ordOf da + 1 - ordOf da) da hva
            hya1 (Or.inr rfl) (Nat.le_refl _)
        simp only [if_neg hlt]
        refine ⟨l, by rw [e1]; exact hl, by rw [e2]; exact hl, ?_, sh, sl, sc,
          slen, sv⟩
        intro hnil
        rw [hnil] at sh
        exact absurd sh (by simp)
      · rw [if_neg hlt] at hnm
        rw [if_neg hlt] at e1
        rw [if_pos hc] at e2
        obtain ⟨l, hl, sh, sl, sc, slen, sv⟩ :=
          genLoopDates_spec da hva hya2 hnm (ordOf da + 1 - ordOf db) db hvb
            hyb1 (Or.inl hc) (Nat.le_refl _)
        simp only [if_neg hlt]
        refine ⟨l, by rw [e1]; exact hl, by rw [e2]; exact hl, ?_, sh, sl, sc,
          slen, sv⟩
        intro hnil
        rw [hnil] at sh
        exact absurd sh (by simp)
  · intro hm
    by_cases hlt : dateLt da db
    · rw [if_pos hlt] at hm
      rw [if_pos hlt] at e1
      rw [if_neg (dateLt_asymm_lex da db hlt)] at e2
      subst hm
      have hov := genLoopDates_overflow
        (ordOf (⟨9999, 12, 31⟩ : Date) + 1 - ordOf da) da hva (Or.inl hlt)
        (Nat.le_refl _)
      exact ⟨by rw [e1]; exact hov, by rw [e2]; exact hov⟩
    · rcases dateLt_connex da db with hc | hc | hc
      · exact absurd hc hlt
      · subst hc
        rw [if_neg hlt] at hm
        rw [if_neg hlt] at e1 e2
        subst hm
        have hov := genLoopDates_overflow
          (ordOf (⟨9999, 12, 31⟩ : Date) + 1 - ordOf (⟨9999, 12, 31⟩ : Date))
          ⟨9999, 12, 31⟩ (by decide) (Or.inr rfl) (Nat.le_refl _)
        exact ⟨by rw [e1]; exact hov, by rw [e2]; exact hov⟩
      · rw [if_neg hlt] at hm
        rw [if_neg hlt] at e1
        rw [if_pos hc] at e2
        subst hm
        have hov := genLoopDates_overflow
          (ordOf (⟨9999, 12, 31⟩ : Date) + 1 - ordOf db) db hvb (Or.inl hc)
          (Nat.le_refl _)
        exact ⟨by rw [e1]; exact hov, by rw [e2]; exact hov⟩

/-- C8 witness: the theorem applied to the concrete valid dates
`2021-03-02` and `2021-02-27` (given in reversed order, both sides below
the calendar maximum) and to the overflowing pair ending at `9999-12-31`,
with all hypotheses discharged by evaluation. -/
theorem C8_generate_dates_inclusive_symmetric_witness :
    (∃ l, generate_dates "2021-03-02" "2021-02-27" = some l ∧
      generate_dates "2021-02-27" "2021-03-02" = some l ∧ l ≠ [] ∧
      l.head? = some (formatDate ⟨2021, 2, 27⟩) ∧
      l.getLast? = some (formatDate ⟨2021, 3, 2⟩) ∧
      List.Chain' chainStep l ∧
      l.length = ordOf (⟨2021, 3, 2⟩ : Date) + 1 -
        ordOf (⟨2021, 2, 27⟩ : Date) ∧
      ∀ s ∈ l, validate_date s = true) ∧
    generate_dates "9999-12-30" "9999-12-31" = none := by
  constructor
  · have h := (C8_generate_dates_inclusive_symmetric "2021-03-02" "2021-02-27"
      ⟨2021, 3, 2⟩ ⟨2021, 2, 27⟩ (by decide) (by decide)).1 (by decide)
    simp only [if_neg
      (show ¬ dateLt (⟨2021, 3, 2⟩ : Date) ⟨2021, 2, 27⟩ by decide)] at h
    exact h
  · exact ((C8_generate_dates_inclusive_symmetric "9999-12-30" "9999-12-31"
      ⟨9999, 12, 30⟩ ⟨9999, 12, 31⟩ (by decide) (by decide)).2 (by decide)).1

example : strSplitOn "a,b" ',' = ["a", "b"] := by decide

example : strSplitOn "" ',' = [""] := by decide

example : strSplitOn "1:2:3" ':' = ["1", "2", "3"] := by decide

example : strTrim "  2021-01-01 " = "2021-01-01" := by decide

example : strTrim " : " = ":" := by decide

example : strTrim "\x0c 2021-01-01 " = "2021-01-01" := by decide

example : prepare_dates "\x0c2021-01-01" = .ok ["2021-01-01"] := by decide

example : prepare_dates "9999-12-31" = .ok ["9999-12-31"] := by decide

example : prepare_dates "9999-12-31:9999-12-31" = .ok ["9999-12-31"] := by decide

theorem splitOnChar_ne_nil (sep : Char) (l : List Char) : splitOnChar sep l ≠ [] := by
  induction l with
  | nil => simp [splitOnChar]
  | cons c rest ih =>
    unfold splitOnChar
    by_cases h : c = sep
    · rw [if_pos h]
      simp
    · rw [if_neg h]
      cases hrec : splitOnChar sep rest <;> simp

/-- Python `str.split` never returns an empty list, so the "missing values"
branch of `prepare_dates` is unreachable. -/
theorem strSplitOn_ne_nil (s : String) (sep : Char) : strSplitOn s sep ≠ [] := by
  unfold strSplitOn
  intro h
  exact splitOnChar_ne_nil sep s.data (by simpa using h)

example : prepare_dates "2021-01-01" = .ok ["2021-01-01"] := by decide

example : prepare_dates "2021-01-01,bad" = .error .runtimeError := by decide

example : prepare_dates "1:2:3" = .error .valueError := by decide

example : prepare_dates ":" = .ok [] := by decide

example : prepare_dates "2021-01-01, ,2021-01-02" = .ok ["2021-01-01", "2021-01-02"] := by
  decide

/-- The loop is equivalent to a per-component classification: an
`OverflowError` iff some component's range expansion overflows (a problem
never aborts the loop, so a later overflow still raises), otherwise an
aggregate `RuntimeError` iff the flag is set or some component is a
problem, and otherwise the concatenation of every component's dates,
appended to the accumulator. -/
theorem prepDatesLoop_spec :
    ∀ (items dates : List String) (problems : Bool),
      (∀ c ∈ items, (strSplitOn c ':').length ≤ 2) →
      prepDatesLoop items dates problems =
        if items.any compOverflow then Except.error PrepErr.overflowError
        else if problems || items.any compProblem then
          Except.error PrepErr.runtimeError
        else Except.ok (dates ++ (items.map compDates).flatten) := by
  intro items
  induction items with
  | nil =>
    intro dates problems _
    cases problems <;> simp [prepDatesLoop]
  | cons c rest ih =>
    intro dates problems hlen
    have hc : (strSplitOn c ':').length ≤ 2 := hlen c (by simp)
    have hrest : ∀ x ∈ rest, (strSplitOn x ':').length ≤ 2 := by
      intro x hx
      exact hlen x (by simp [hx])
    rw [prepDatesLoop]
    rw [if_neg (by omega)]
    simp only [List.any_cons, List.map_cons, List.flatten_cons, compProblem,
      compDates, compOverflow]
    by_cases h1 : (if (strSplitOn c ':').length = 2
          then (strSplitOn c ':').getD 0 "" else c) =
        (if (strSplitOn c ':').length = 2 then (strSplitOn c ':').getD 1 "" else c)
    · rw [if_pos h1, if_pos h1, if_pos h1, if_pos h1]
      by_cases h2 : strTrim (if (strSplitOn c ':').length = 2
          then (strSplitOn c ':').getD 0 "" else c) = ""
      · rw [if_pos h2, if_pos h2, if_pos h2, ih dates problems hrest]
        simp
      · rw [if_neg h2, if_neg h2, if_neg h2]
        by_cases h3 : validate_date (strTrim (if (strSplitOn c ':').length = 2
            then (strSplitOn c ':').getD 0 "" else c))
        · rw [if_pos h3, if_pos h3, if_pos h3, ih _ problems hrest]
          simp [List.append_assoc]
        · rw [if_neg h3, if_neg h3, if_neg h3, ih dates true hrest]
          simp
    · rw [if_neg h1, if_neg h1, if_neg h1, if_neg h1]
      by_cases h2 : strTrim (if (strSplitOn c ':').length = 2
            then (strSplitOn c ':').getD 0 "" else c) = "" ∨
          strTrim (if (strSplitOn c ':').length = 2
            then (strSplitOn c ':').getD 1 "" else c) = ""
      · rw [if_pos h2, if_pos h2, if_pos h2, if_pos h2, ih dates true hrest]
        simp
      · rw [if_neg h2, if_neg h2, if_neg h2, if_neg h2]
        by_cases h3 : validate_date (strTrim (if (strSplitOn c ':').length = 2
              then (strSplitOn c ':').getD 0 "" else c)) ∧
            validate_date (strTrim (if (strSplitOn c ':').length = 2
              then (strSplitOn c ':').getD 1 "" else c))
        · rw [if_pos h3, if_pos h3, if_pos h3, if_pos h3]
          cases hg : generate_dates
              (strTrim (if (strSplitOn c ':').length = 2
                then (strSplitOn c ':').getD 0 "" else c))
              (strTrim (if (strSplitOn c ':').length = 2
                then (strSplitOn c ':').getD 1 "" else c)) with
          | none => simp
          | some ds =>
            show prepDatesLoop rest (dates ++ ds) problems = _
            rw [ih _ problems hrest]
            simp [List.append_assoc]
        · rw [if_neg h3, if_neg h3, if_neg h3, if_neg h3, ih dates true hrest]
          simp

/-- C7 counterexample: the claim says any failing non-empty component causes
a `RuntimeError` raised after all components are processed.  For the
argument `"x,1:2:3"` — whose first component `"x"` is non-empty and fails
validation — the code instead raises `ValueError` in the middle of the loop
(component `"1:2:3"` breaks the two-value tuple unpacking), not the
aggregate `RuntimeError`. -/
theorem C7_value_error_counterexample :
    prepare_dates "x,1:2:3" = Except.error PrepErr.valueError ∧
      PrepErr.valueError ≠ PrepErr.runtimeError ∧
      validate_date "x" = false := by
  decide

/-- C7 (amended): restricted to arguments whose components each contain at
most one colon (two or more colons raise `ValueError` immediately instead),
`prepare_dates` classifies every component — components stripping to an
empty single date are skipped.  If some range component with two non-empty
valid sides expands past the calendar maximum (its later date being
9999-12-31), the `OverflowError` of `generate_dates` escapes immediately;
otherwise the aggregate `RuntimeError` is raised after processing all
components iff some component is a problem (a non-empty single date failing
validation, or a range with an empty or invalid side); when no component is
a problem it returns the concatenated expansion of all components. -/
theorem C7_prepare_dates_aggregate :
    ∀ dates_arg : String,
      (∀ c ∈ strSplitOn dates_arg ',', (strSplitOn c ':').length ≤ 2) →
      ((strSplitOn dates_arg ',').any compOverflow = true →
        prepare_dates dates_arg = Except.error PrepErr.overflowError) ∧
      ((strSplitOn dates_arg ',').any compOverflow = false →
        ((strSplitOn dates_arg ',').any compProblem = true →
          prepare_dates dates_arg = Except.error PrepErr.runtimeError) ∧
        ((strSplitOn dates_arg ',').any compProblem = false →
          prepare_dates dates_arg =
            Except.ok (((strSplitOn dates_arg ',').map compDates).flatten))) := by
  intro dates_arg hlen
  have hne : strSplitOn dates_arg ',' ≠ [] := strSplitOn_ne_nil dates_arg ','
  have hspec := prepDatesLoop_spec (strSplitOn dates_arg ',') [] false hlen
  refine ⟨?_, ?_⟩
  · intro hov
    unfold prepare_dates
    rw [if_neg hne, hspec, hov]
    simp
  · intro hov
    refine ⟨?_, ?_⟩
    · intro hsome
      unfold prepare_dates
      rw [if_neg hne, hspec, hov, hsome]
      simp
    · intro hnone
      unfold prepare_dates
      rw [if_neg hne, hspec, hov, hnone]
      simp

/-- C7 witness: the aggregate theorem applied at three concrete arguments —
one with an invalid component (aggregate `RuntimeError`), one fully valid
(the expanded tuple), and one whose range expansion overflows the calendar
maximum (`OverflowError`), hypotheses discharged by evaluation. -/
theorem C7_prepare_dates_aggregate_witness :
    prepare_dates "2021-01-01,bad" = Except.error PrepErr.runtimeError ∧
    prepare_dates "2021-01-01,2021-01-03:2021-01-05" =
      Except.ok ["2021-01-01", "2021-01-03", "2021-01-04", "2021-01-05"] ∧
    prepare_dates "9999-12-30:9999-12-31" =
      Except.error PrepErr.overflowError := by
  refine ⟨?_, ?_, ?_⟩
  · exact ((C7_prepare_dates_aggregate "2021-01-01,bad" (by decide)).2
      (by decide)).1 (by decide)
  · have h := ((C7_prepare_dates_aggregate "2021-01-01,2021-01-03:2021-01-05"
      (by decide)).2 (by decide)).2 (by decide)
    rw [h]
    decide
  · exact (C7_prepare_dates_aggregate "9999-12-30:9999-12-31" (by decide)).1
      (by decide)

theorem seasonStep_not_rel (file_parts : List String) (season_id : Int)
    (found : Option Int) (s : Season) (h : relSeason season_id s = false) :
    seasonStep file_parts season_id found s = found := by
  unfold relSeason at h
  rcases hid : s.id with _ | sid
  · simp only [seasonStep, hid]
  · rcases hsites : s.sites with _ | sites
    · simp only [seasonStep, hid, hsites]
    · rw [hid, hsites] at h
      simp only [Option.isSome_some, Bool.and_true, decide_eq_false_iff_not] at h
      simp only [seasonStep, hid, hsites]
      rw [if_neg (by intro hc; exact h (by rw [hc]))]

theorem foldl_seasonStep_no_rel (file_parts : List String) (season_id : Int) :
    ∀ (l : List Season) (found : Option Int),
      (∀ s ∈ l, relSeason season_id s = false) →
      l.foldl (seasonStep file_parts season_id) found = found := by
  intro l
  induction l with
  | nil => intro found _; rfl
  | cons s rest ih =>
    intro found h
    rw [List.foldl_cons, seasonStep_not_rel _ _ _ _ (h s (by simp))]
    exact ih found (fun x hx => h x (by simp [hx]))

theorem firstMatching_no_rel (file_path : String) (season_id : Int)
    (l : List Season) (h : ∀ s ∈ l, relSeason season_id s = false) :
    firstMatchingPlotId file_path season_id l = none := by
  unfold firstMatchingPlotId
  rw [List.findSome?_eq_none_iff]
  intro s hs
  have hrel := h s hs
  unfold relSeason at hrel
  rcases hid : s.id with _ | sid
  · simp only [hid]
  · rcases hsites : s.sites with _ | sites
    · simp only [hid, hsites]
    · rw [hid, hsites] at hrel
      simp only [Option.isSome_some, Bool.and_true, decide_eq_false_iff_not] at hrel
      simp only [hid, hsites]
      rw [if_neg (by intro hc; exact hrel (by rw [hc]))]

/-- With at most one scanned season, the stateful scan agrees with the
first-site reading. -/
theorem foldl_seasonStep_eq_firstMatching (file_path : String) (season_id : Int) :
    ∀ (l : List Season), l.countP (relSeason season_id) ≤ 1 →
      l.foldl (seasonStep (strSplitOn file_path '/') season_id) none =
        firstMatchingPlotId file_path season_id l := by
  intro l
  induction l with
  | nil => intro _; rfl
  | cons s rest ih =>
    intro hcount
    rw [List.countP_cons] at hcount
    rw [List.foldl_cons]
    unfold firstMatchingPlotId
    rw [List.findSome?_cons]
    by_cases hrel : relSeason season_id s = true
    · have hrest : ∀ x ∈ rest, relSeason season_id x = false := by
        intro x hx
        rcases Bool.eq_false_or_eq_true (relSeason season_id x) with ht | hf
        · exfalso
          have hpos : 0 < rest.countP (relSeason season_id) :=
            List.countP_pos_iff.mpr ⟨x, hx, ht⟩
          rw [if_pos hrel] at hcount
          omega
        · exact hf
      have hid : s.id = some season_id := by
        unfold relSeason at hrel
        simp only [Bool.and_eq_true, decide_eq_true_eq] at hrel
        exact hrel.1
      obtain ⟨sites, hsites⟩ : ∃ sites, s.sites = some sites := by
        unfold relSeason at hrel
        simp only [Bool.and_eq_true, decide_eq_true_eq,
          Option.isSome_iff_exists] at hrel
        exact hrel.2
      simp only [seasonStep, hid, hsites, if_pos]
      have hrestnone := firstMatching_no_rel file_path season_id rest hrest
      unfold firstMatchingPlotId at hrestnone
      rcases hfind : sites.findSome? (siteMatchId (strSplitOn file_path '/')) with _ | pid
      · rw [foldl_seasonStep_no_rel _ _ rest none hrest, hrestnone]
      · rw [foldl_seasonStep_no_rel _ _ rest (some pid) hrest]
    · have hrelf : relSeason season_id s = false := by
        rcases Bool.eq_false_or_eq_true (relSeason season_id s) with ht | hf
        · exact absurd ht hrel
        · exact hf
      rw [seasonStep_not_rel _ _ _ _ hrelf]
      have hnone : (match s.id, s.sites with
          | some sid, some sites =>
            if sid = season_id then
              sites.findSome? (siteMatchId (strSplitOn file_path '/'))
            else none
          | _, _ => none) = (none : Option Int) := by
        unfold relSeason at hrelf
        rcases hid : s.id with _ | sid
        · simp only [hid]
        · rcases hsites : s.sites with _ | sites
          · simp only [hid, hsites]
          · rw [hid, hsites] at hrelf
            simp only [Option.isSome_some, Bool.and_true,
              decide_eq_false_iff_not] at hrelf
            simp only [hid, hsites]
            rw [if_neg (by intro hc; exact hrelf (by rw [hc]))]
      rw [hnone]
      rw [if_neg hrel] at hcount
      exact ih (by omega)

/-- C9: `map_file_to_plot_id` splits the file path on '/' and — when at most
one season carries the given id (the data model's season-identity
assumption) — returns the id of the first site within that season whose
sitename equals one of the path segments, and raises `RuntimeError`
(`Except.error`) if and only if no site of that season matches any path
segment. -/
theorem C9_map_file_to_plot_id_first_site :
    ∀ (file_path : String) (season_id : Int) (seasons : List Season),
      seasons.countP (relSeason season_id) ≤ 1 →
      (map_file_to_plot_id file_path season_id seasons =
        match firstMatchingPlotId file_path season_id seasons with
        | some pid => Except.ok pid
        | none => Except.error ()) ∧
      (map_file_to_plot_id file_path season_id seasons = Except.error () ↔
        ∀ s ∈ seasons, s.id = some season_id →
          ∀ sites, s.sites = some sites →
            ∀ entry ∈ sites, siteMatchId (strSplitOn file_path '/') entry = none) := by
  intro file_path season_id seasons hcount
  have hmain : map_file_to_plot_id file_path season_id seasons =
      match firstMatchingPlotId file_path season_id seasons with
      | some pid => Except.ok pid
      | none => Except.error () := by
    unfold map_file_to_plot_id
    rw [foldl_seasonStep_eq_firstMatching file_path season_id seasons hcount]
  refine ⟨hmain, ?_⟩
  rw [hmain]
  constructor
  · intro herr
    rcases hfm : firstMatchingPlotId file_path season_id seasons with _ | pid
    · intro s hs hid sites hsites entry hentry
      unfold firstMatchingPlotId at hfm
      have hf := List.findSome?_eq_none_iff.mp hfm s hs
      rw [hid, hsites] at hf
      simp only [if_pos] at hf
      exact List.findSome?_eq_none_iff.mp hf entry hentry
    · rw [hfm] at herr
      exact absurd herr (by simp)
  · intro hall
    rcases hfm : firstMatchingPlotId file_path season_id seasons with _ | pid
    · rfl
    · exfalso
      unfold firstMatchingPlotId at hfm
      obtain ⟨s, hs, hfs⟩ := List.exists_of_findSome?_eq_some hfm
      rcases hid : s.id with _ | sid
      · rw [hid] at hfs
        exact absurd hfs (by simp)
      · rcases hsites : s.sites with _ | sites
        · rw [hid, hsites] at hfs
          exact absurd hfs (by simp)
        · rw [hid, hsites] at hfs
          by_cases hsid : sid = season_id
          · simp only [if_pos hsid] at hfs
            obtain ⟨entry, hentry, hematch⟩ := List.exists_of_findSome?_eq_some hfs
            have := hall s hs (by rw [hid, hsid]) sites hsites entry hentry
            rw [this] at hematch
            exact absurd hematch (by simp)
          · simp only [if_neg hsid] at hfs
            exact absurd hfs (by simp)

/-- C9 witness: the lookup applied to one season (id 1) holding one site
(id 100, sitename "plotA") and the path "2020/plotA/f.bin": the site id is
returned, hypotheses discharged by evaluation. -/
theorem C9_map_file_to_plot_id_first_site_witness :
    map_file_to_plot_id "2020/plotA/f.bin" 1
      [⟨some 1, some [⟨some ⟨100, some "plotA"⟩⟩]⟩] = Except.ok 100 := by
  have h := (C9_map_file_to_plot_id_first_site "2020/plotA/f.bin" 1
    [⟨some 1, some [⟨some ⟨100, some "plotA"⟩⟩]⟩] (by decide)).1
  rw [h]
  decide

example : strEndsWith "x_metadata.json" "_metadata.json" = true := by decide

example : strEndsWith "data.bin" "_metadata.json" = false := by decide

example : extFormat "data.bin" = "bin" := by decide

example : extFormat "archive.tar.gz" = "gz" := by decide

example : extFormat ".bashrc" = "" := by decide

example : extFormat "noext" = "" := by decide

example : globus_get_files_info ["data.bin"] "p" ["bin"] none =
    .error .runtimeWarning := by decide

example : globus_get_files_info ["data.bin", "x_metadata.json"] "p" ["bin"] none =
    .ok (some [⟨"p", "data.bin", "bin", some "x_metadata.json"⟩,
      ⟨"p", "x_metadata.json", "json", none⟩]) := by decide

example : globus_get_files_info ["data.txt"] "p" ["bin"] none = .ok none := by decide

/-- C5 counterexample: the claim says a file whose sidecar cannot be located
(no metadata JSON sibling, mapper yields nothing) is treated as non-fatal
and still returned for persistence with null position/time fields.  The
code instead raises `RuntimeWarning("Missing metadata JSON files")`, which
`globus_get_save_files` re-raises (generate.py lines 1255-1259), so the
file is never persisted. -/
theorem C5_missing_sidecar_counterexample :
    globus_get_files_info ["data.bin"] "p" ["bin"]
        (some (fun _ _ => none)) = Except.error GWErr.runtimeWarning ∧
      ∀ l, Except.error GWErr.runtimeWarning ≠
        (Except.ok l : Except GWErr (Option (List FileInfo))) := by
  constructor
  · rfl
  · intro l hc
    exact Except.noConfusion hc

theorem strEndsWith_meta_of_underscore (e : String)
    (h : strEndsWith e "_metadata.json" = true) :
    strEndsWith e "metadata.json" = true := by
  unfold strEndsWith at h ⊢
  rw [List.isSuffixOf_iff_suffix] at h ⊢
  exact List.IsSuffix.trans
    (List.isSuffixOf_iff_suffix.mp (by decide)) h

theorem filesInfoStep_pos (files_path : String) (extensions : List String)
    (ds : List FileInfo) (j : Option String) (name : String)
    (hm : (strEndsWith name "_metadata.json" ||
      extensions.any (fun x => x = "*" || x = extFormat name)) = true)
    (hmeta : strEndsWith name "metadata.json" = false) :
    filesInfoStep files_path extensions (ds, j) name =
      (ds ++ [⟨files_path, name, extFormat name, none⟩], j) := by
  simp [filesInfoStep, hm, hmeta]

theorem filesInfoStep_neg (files_path : String) (extensions : List String)
    (ds : List FileInfo) (j : Option String) (name : String)
    (hm : (strEndsWith name "_metadata.json" ||
      extensions.any (fun x => x = "*" || x = extFormat name)) = false) :
    filesInfoStep files_path extensions (ds, j) name = (ds, j) := by
  simp [filesInfoStep, hm]

/-- Phase 1 under "no metadata.json sibling": the sidecar slot stays as it
was and the kept files are exactly the extension-matched entries. -/
theorem foldl_filesInfo_no_meta (files_path : String) (extensions : List String) :
    ∀ (entries : List String) (ds : List FileInfo) (j : Option String),
      (∀ e ∈ entries, strEndsWith e "metadata.json" = false) →
      entries.foldl (filesInfoStep files_path extensions) (ds, j) =
        (ds ++ entries.filterMap (fun name =>
          if strEndsWith name "_metadata.json" ||
              extensions.any (fun x => x = "*" || x = extFormat name) then
            some ⟨files_path, name, extFormat name, none⟩
          else none), j) := by
  intro entries
  induction entries with
  | nil => intro ds j _; simp
  | cons e rest ih =>
    intro ds j h
    have he : strEndsWith e "metadata.json" = false := h e (by simp)
    have hrest : ∀ x ∈ rest, strEndsWith x "metadata.json" = false := by
      intro x hx
      exact h x (by simp [hx])
    by_cases hm : (strEndsWith e "_metadata.json" ||
        extensions.any (fun x => x = "*" || x = extFormat e)) = true
    · rw [List.foldl_cons, filesInfoStep_pos files_path extensions ds j e hm he,
        ih _ j hrest, List.filterMap_cons]
      simp [hm]
    · have hm' : (strEndsWith e "_metadata.json" ||
          extensions.any (fun x => x = "*" || x = extFormat e)) = false :=
        Bool.eq_false_iff.mpr hm
      rw [List.foldl_cons, filesInfoStep_neg files_path extensions ds j e hm',
        ih ds j hrest, List.filterMap_cons]
      simp [hm']

/-- A non-sidecar file processed with no known sidecar and a mapper that
finds none: the sidecar slot stays empty, the missing flag is set, the file
is appended untouched. -/
theorem fillJsonStep_none_eq
    (metadata_file_mapper : Option (String → String → Option String))
    (hmap : ∀ mfm, metadata_file_mapper = some mfm → ∀ d f, mfm d f = none)
    (missing : Bool) (out : List FileInfo) (f : FileInfo)
    (hside : strEndsWith f.filename "_metadata.json" = false) :
    fillJsonStep metadata_file_mapper (none, missing, out) f =
      (none, true, out ++ [f]) := by
  rcases hm : metadata_file_mapper with _ | mfm
  · simp [fillJsonStep, hside]
  · have hval := hmap mfm hm f.directory f.filename
    simp [fillJsonStep, hside, hval]

/-- Phase 2 with no known sidecar and a mapper that never finds one: the
missing flag ends up set iff some processed file is not itself a sidecar. -/
theorem foldl_fillJson_missing
    (metadata_file_mapper : Option (String → String → Option String))
    (hmap : ∀ mfm, metadata_file_mapper = some mfm → ∀ d f, mfm d f = none) :
    ∀ (files : List FileInfo) (missing : Bool) (out : List FileInfo),
      (files.foldl (fillJsonStep metadata_file_mapper) (none, missing, out)).2.1 =
        (missing || files.any (fun f => ! strEndsWith f.filename "_metadata.json")) := by
  intro files
  induction files with
  | nil => intro missing out; simp
  | cons f rest ih =>
    intro missing out
    rw [List.foldl_cons, List.any_cons]
    by_cases hside : strEndsWith f.filename "_metadata.json" = true
    · unfold fillJsonStep
      rw [if_pos hside, hside]
      simp only [Bool.not_true, Bool.false_or]
      exact ih missing (out ++ [f])
    · have hside' : strEndsWith f.filename "_metadata.json" = false :=
        Bool.eq_false_iff.mpr hside
      rw [fillJsonStep_none_eq metadata_file_mapper hmap missing out f hside',
        ih true (out ++ [f]), hside']
      simp

/-- C5 (amended): when a folder listing contains at least one
extension-matched file, no `metadata.json` sibling is listed, and the
sensor's metadata-file mapper is absent or returns null for every file,
`globus_get_files_info` raises `RuntimeWarning` — a missing sidecar is
fatal (the exception is re-raised by `globus_get_save_files`), and the
folder's files are not returned for persistence. -/
theorem C5_missing_sidecar_fatal :
    ∀ (entries : List String) (files_path : String) (extensions : List String)
      (metadata_file_mapper : Option (String → String → Option String)),
      (∃ e ∈ entries, extensions.any (fun x => x = "*" || x = extFormat e) = true) →
      (∀ e ∈ entries, strEndsWith e "metadata.json" = false) →
      (∀ mfm, metadata_file_mapper = some mfm → ∀ d f, mfm d f = none) →
      globus_get_files_info entries files_path extensions metadata_file_mapper =
        Except.error GWErr.runtimeWarning := by
  intro entries files_path extensions metadata_file_mapper hex hmeta hmap
  obtain ⟨e, he, hext⟩ := hex
  have hcond : (strEndsWith e "_metadata.json" ||
      extensions.any (fun x => x = "*" || x = extFormat e)) = true := by
    rw [hext]
    simp
  have hnotside : strEndsWith e "_metadata.json" = false := by
    cases hb : strEndsWith e "_metadata.json"
    · rfl
    · have hmb := strEndsWith_meta_of_underscore e hb
      rw [hmeta e he] at hmb
      exact absurd hmb Bool.false_ne_true
  have hkeep : (⟨files_path, e, extFormat e, none⟩ : FileInfo) ∈
      entries.filterMap (fun name =>
        if strEndsWith name "_metadata.json" ||
            extensions.any (fun x => x = "*" || x = extFormat name) then
          some ⟨files_path, name, extFormat name, none⟩
        else none) :=
    List.mem_filterMap.mpr ⟨e, he, by rw [if_pos hcond]⟩
  have hne : entries.filterMap (fun name =>
      if strEndsWith name "_metadata.json" ||
          extensions.any (fun x => x = "*" || x = extFormat name) then
        some (⟨files_path, name, extFormat name, none⟩ : FileInfo)
      else none) ≠ [] := by
    intro hnil
    rw [hnil] at hkeep
    exact absurd hkeep (List.not_mem_nil _)
  have hany : (entries.filterMap (fun name =>
      if strEndsWith name "_metadata.json" ||
          extensions.any (fun x => x = "*" || x = extFormat name) then
        some (⟨files_path, name, extFormat name, none⟩ : FileInfo)
      else none)).any (fun f => ! strEndsWith f.filename "_metadata.json") = true := by
    rw [List.any_eq_true]
    refine ⟨⟨files_path, e, extFormat e, none⟩, hkeep, ?_⟩
    simp [hnotside]
  simp only [globus_get_files_info,
    foldl_filesInfo_no_meta files_path extensions entries [] none hmeta,
    List.nil_append]
  rw [if_neg hne,
    foldl_fillJson_missing metadata_file_mapper hmap _ false [], hany]
  rfl

/-- C5 witness: the amended theorem applied to a one-file listing with a
wildcard filter and no mapper, hypotheses discharged by evaluation. -/
theorem C5_missing_sidecar_fatal_witness :
    globus_get_files_info ["a.bin"] "p" ["*"] none =
      Except.error GWErr.runtimeWarning :=
  C5_missing_sidecar_fatal ["a.bin"] "p" ["*"] none (by decide) (by decide)
    (fun mfm hm => Option.noConfusion hm)

example : generate [true] [true, true] ⟨some 7, none⟩ = (true, ⟨some 2, none⟩) := by
  decide

example : generate [true] [true, false, true] ⟨some 7, none⟩ =
    (false, ⟨some 7, none⟩) := by decide

example : generate [false] [true] ⟨none, none⟩ = (false, ⟨none, none⟩) := by decide

theorem buildSteps_dest : ∀ (steps : List Bool) (fs : GenFS),
    (buildSteps steps fs).1.dest = fs.dest := by
  intro steps
  induction steps with
  | nil => intro fs; rfl
  | cons ok rest ih =>
    intro fs
    unfold buildSteps
    by_cases h : ok = true
    · rw [if_pos h]
      exact ih _
    · rw [if_neg h]

theorem buildSteps_ok_iff : ∀ (steps : List Bool) (fs : GenFS),
    (buildSteps steps fs).2 = steps.all id := by
  intro steps
  induction steps with
  | nil => intro fs; rfl
  | cons ok rest ih =>
    intro fs
    unfold buildSteps
    by_cases h : ok = true
    · rw [if_pos h, h]
      simpa using ih _
    · rw [if_neg h]
      have h' : ok = false := Bool.eq_false_iff.mpr h
      rw [h']
      simp

/-- C6: if any step of the build fails — during argument preparation before
the temporary file exists, or inside the `try` — the run fails, the
destination path is left exactly as it was, and no temporary file remains;
the destination receives the built database only when every step succeeded
(and then the temporary file is gone too, having been moved). -/
theorem C6_no_partial_destination :
    ∀ (preSteps steps : List Bool) (fs0 : GenFS),
      fs0.temp = none →
      ((generate preSteps steps fs0).1 = false →
        (generate preSteps steps fs0).2.dest = fs0.dest ∧
        (generate preSteps steps fs0).2.temp = none) ∧
      ((generate preSteps steps fs0).1 = true ↔
        (preSteps.all id = true ∧ steps.all id = true)) ∧
      ((generate preSteps steps fs0).1 = true →
        (generate preSteps steps fs0).2.dest =
          (buildSteps steps { fs0 with temp := some 0 }).1.temp ∧
        (generate preSteps steps fs0).2.temp = none) := by
  intro preSteps steps fs0 htemp
  by_cases hpre : preSteps.all id = true
  · rcases hbuild : buildSteps steps { fs0 with temp := some 0 } with ⟨fs2, okb⟩
    have hdest : fs2.dest = fs0.dest := by
      have hb := buildSteps_dest steps { fs0 with temp := some 0 }
      rw [hbuild] at hb
      exact hb
    have hok : okb = steps.all id := by
      have hb := buildSteps_ok_iff steps { fs0 with temp := some 0 }
      rw [hbuild] at hb
      exact hb
    cases okb with
    | true =>
      have hgen : generate preSteps steps fs0 =
          (true, finallyClause { dest := fs2.temp, temp := none }) := by
        simp [generate, hpre, hbuild]
      rw [hgen]
      refine ⟨fun hcon => absurd hcon (by simp), ?_, ?_⟩
      · simp [hpre, ← hok]
      · intro _
        constructor
        · simp [finallyClause, hbuild]
        · simp [finallyClause]
    | false =>
      have hgen : generate preSteps steps fs0 = (false, finallyClause fs2) := by
        simp [generate, hpre, hbuild]
      rw [hgen]
      refine ⟨fun _ => ?_, ?_, fun hcon => absurd hcon (by simp)⟩
      · constructor
        · cases ht2 : fs2.temp <;> simp [finallyClause, ht2, hdest]
        · cases ht2 : fs2.temp <;> simp [finallyClause, ht2]
      · simp [hpre, ← hok]
  · have hgen : generate preSteps steps fs0 = (false, fs0) := by
      simp [generate, hpre]
    rw [hgen]
    refine ⟨fun _ => ⟨rfl, htemp⟩, ?_, fun hcon => absurd hcon (by simp)⟩
    simp [hpre]

/-- C6 witness: a run whose third build step fails, starting from a
destination already holding version 5: the run reports failure, the
destination still holds version 5, and no temporary file is left. -/
theorem C6_no_partial_destination_witness :
    (generate [true] [true, true, false] ⟨some 5, none⟩).2.dest = some 5 ∧
    (generate [true] [true, true, false] ⟨some 5, none⟩).2.temp = none :=
  (C6_no_partial_destination [true] [true, true, false] ⟨some 5, none⟩ rfl).1
    (by decide)

end GenerateSqlite

